import Mathlib

/-!
Verification of the Codemm-Desktop problem-generation core against its
natural-language specification.

This file shallowly embeds the TypeScript sources of the per-slot problem
generation pipeline (scanner, mechanical rewrites, planner, test-strength
gate, structural-topic obligations and the Java generation path) as
executable Lean definitions over `List Char`, and settles the frozen claims
C1..C10 about them.

Conventions:
- JavaScript strings are modelled as `List Char` (`Src`).
- JavaScript index-based while loops are modelled as fuel-based recursions
  that consume the remaining character list while tracking the absolute
  position; the fuel supplied by each wrapper (`length + 1`) dominates the
  iteration count, because every loop iteration of the original consumes at
  least one character.
- Functions keep the source names.  `String(x ?? "")` coercions on values
  that are already strings are identities and are dropped.
- Brace characters inside string literals are written with the escapes
  \x7b and \x7d; the apostrophe character is `squote` below.
-/

namespace Codemm

/-- Source text, modelling a JavaScript string. -/
abbrev Src := List Char

/-- The left brace character. -/
def lbrace : Char := Char.ofNat 123

/-- The right brace character. -/
def rbrace : Char := Char.ofNat 125

/-- The apostrophe (single-quote) character. -/
def squote : Char := Char.ofNat 39

/-- ASCII letter test, the `[A-Za-z]` character class. -/
def isAsciiLetter (c : Char) : Bool :=
  ('A' ≤ c && c ≤ 'Z') || ('a' ≤ c && c ≤ 'z')

/-- ASCII digit test, the `[0-9]` character class. -/
def isAsciiDigit (c : Char) : Bool :=
  '0' ≤ c && c ≤ '9'

/-- The JavaScript `[A-Za-z0-9_]` (= `\w`) character class used by
`isWordChar` in javaSource.ts. -/
def isWordChar (c : Char) : Bool :=
  isAsciiLetter c || isAsciiDigit c || c = '_'

/-- The `[A-Za-z_]` class used by `isWordStart` in javaSource.ts. -/
def isWordStart (c : Char) : Bool :=
  isAsciiLetter c || c = '_'

/-- The JavaScript `\s` class, restricted to the characters that can occur
in the sources this project scans (ASCII whitespace plus NBSP; the
remaining Unicode space characters of `\s` are omitted). -/
def isJsSpace (c : Char) : Bool :=
  c = ' ' || c = '\t' || c = '\n' || c = '\r' || c = '\x0b' || c = '\x0c' || c = '\xa0'

/-- Pattern is a prefix of the text (character-exact). -/
def startsWithSub : Src → Src → Bool
  | [], _ => true
  | _ :: _, [] => false
  | p :: ps, c :: cs => p = c && startsWithSub ps cs

/-- Pattern occurs somewhere in the text, modelling JavaScript
`String.prototype.includes`. -/
def containsSub (pat : Src) : Src → Bool
  | [] => startsWithSub pat []
  | c :: rest => startsWithSub pat (c :: rest) || containsSub pat rest

/-- Number of (possibly overlapping start positions of) occurrences of a
pattern; used only to model global regex counting of non-overlapping
tokens such as "@Test", where occurrences cannot overlap. -/
def countSub (pat : Src) : Src → Nat
  | [] => if startsWithSub pat [] then 1 else 0
  | c :: rest => (if startsWithSub pat (c :: rest) then 1 else 0) + countSub pat rest

/-- JavaScript `String.prototype.trim` (both ends, `\s`). -/
def jsTrim (s : Src) : Src :=
  ((s.dropWhile isJsSpace).reverse.dropWhile isJsSpace).reverse

/-- JavaScript `String.prototype.toLowerCase`, ASCII range. -/
def jsToLower (s : Src) : Src :=
  s.map Char.toLower

/-- Drop leading characters satisfying `p` while counting them, returning
the rest together with the advanced absolute position. -/
def dropCountWhile (p : Char → Bool) : Src → Nat → Src × Nat
  | [], pos => ([], pos)
  | c :: cs, pos =>
    if p c then dropCountWhile p cs (pos + 1) else (c :: cs, pos)

/-! ## javaSource.ts — the Java source scanner -/

/-- The scanner state machine of javaSource.ts (`ScanState`). -/
structure ScanState where
  inLineComment : Bool
  inBlockComment : Bool
  inString : Bool
  inChar : Bool
  escaped : Bool
deriving Repr, DecidableEq

/-- The all-clear initial scanner state. -/
def ScanState.initial : ScanState :=
  ⟨false, false, false, false, false⟩

/-- `readWord` of javaSource.ts: reads a `[A-Za-z_][A-Za-z0-9_]*` word at
the current position, returning the word, the rest, and the position just
after the word. -/
def readWord : Src → Nat → Option (Src × Src × Nat)
  | [], _ => none
  | c :: cs, pos =>
    if isWordStart c then
      let w := cs.takeWhile isWordChar
      some (c :: w, cs.dropWhile isWordChar, pos + 1 + w.length)
    else none

/-- `skipWhitespace` of javaSource.ts, with position tracking. -/
def skipWhitespace (cs : Src) (pos : Nat) : Src × Nat :=
  dropCountWhile isJsSpace cs pos

/-- The parenthesis-balancing loop of `skipAnnotation` in javaSource.ts.
It consumes characters while tracking comment/string state (mutating the
shared scanner state object, which we model by returning the new state)
until the parenthesis depth returns to zero.  The brace-depth bookkeeping
of the original is local to the loop and discarded, so it is omitted. -/
def skipAnnoParen : Nat → Src → Nat → Nat → ScanState → ScanState × Src × Nat
  | 0, cs, pos, _, st => (st, cs, pos)
  | _ + 1, [], pos, _, st => (st, [], pos)
  | fuel + 1, c :: cs, pos, parenDepth, st =>
    if st.inLineComment then
      if c = '\n' then skipAnnoParen fuel cs (pos + 1) parenDepth { st with inLineComment := false }
      else skipAnnoParen fuel cs (pos + 1) parenDepth st
    else if st.inBlockComment then
      if c = '*' && cs.head? = some '/' then
        skipAnnoParen fuel cs.tail (pos + 2) parenDepth { st with inBlockComment := false }
      else skipAnnoParen fuel cs (pos + 1) parenDepth st
    else if st.inString then
      if st.escaped then skipAnnoParen fuel cs (pos + 1) parenDepth { st with escaped := false }
      else if c = '\\' then skipAnnoParen fuel cs (pos + 1) parenDepth { st with escaped := true }
      else if c = '"' then skipAnnoParen fuel cs (pos + 1) parenDepth { st with inString := false }
      else skipAnnoParen fuel cs (pos + 1) parenDepth st
    else if st.inChar then
      if st.escaped then skipAnnoParen fuel cs (pos + 1) parenDepth { st with escaped := false }
      else if c = '\\' then skipAnnoParen fuel cs (pos + 1) parenDepth { st with escaped := true }
      else if c = squote then skipAnnoParen fuel cs (pos + 1) parenDepth { st with inChar := false }
      else skipAnnoParen fuel cs (pos + 1) parenDepth st
    else if c = '/' && cs.head? = some '/' then
      skipAnnoParen fuel cs.tail (pos + 2) parenDepth { st with inLineComment := true }
    else if c = '/' && cs.head? = some '*' then
      skipAnnoParen fuel cs.tail (pos + 2) parenDepth { st with inBlockComment := true }
    else if c = '"' then skipAnnoParen fuel cs (pos + 1) parenDepth { st with inString := true }
    else if c = squote then skipAnnoParen fuel cs (pos + 1) parenDepth { st with inChar := true }
    else if c = '(' then skipAnnoParen fuel cs (pos + 1) (parenDepth + 1) st
    else if c = ')' then
      if parenDepth ≤ 1 then (st, cs, pos + 1)
      else skipAnnoParen fuel cs (pos + 1) (parenDepth - 1) st
    else skipAnnoParen fuel cs (pos + 1) parenDepth st

/-- `skipAnnotation` of javaSource.ts: precondition is that the head of
the input is `@`.  Consumes the annotation identifier (word characters and
dots), optional whitespace and then, when an opening parenthesis follows,
a comment/string-aware balanced parenthesis group. -/
def skipAnno : Src → Nat → ScanState → ScanState × Src × Nat
  | [], pos, st => (st, [], pos)
  | _ :: cs, pos, st =>
    let identRest := dropCountWhile (fun c => isWordChar c || c = '.') cs (pos + 1)
    let wsRest := skipWhitespace identRest.1 identRest.2
    match wsRest.1 with
    | '(' :: _ => skipAnnoParen (wsRest.1.length + 1) wsRest.1 wsRest.2 0 st
    | _ => (st, wsRest.1, wsRest.2)

/-- The four Java type keywords recognised by the scanner. -/
def typeKeywords : List Src :=
  ["class".data, "interface".data, "enum".data, "record".data]

/-- The Java modifiers tolerated between `public` and the type keyword. -/
def declModifiers : List Src :=
  ["abstract".data, "final".data, "sealed".data, "non-sealed".data, "static".data,
   "strictfp".data]

/-- A top-level public type declaration as recorded by
`getTopLevelPublicTypeDecls` (name, keyword, and the source index range of
the `public` token). -/
structure PubDecl where
  name : Src
  keyword : Src
  publicStart : Nat
  publicEnd : Nat
deriving Repr, DecidableEq

/-- A top-level type declaration (public or not) as recorded by
`getTopLevelTypeDecls`. -/
structure TypeDecl where
  name : Src
  keyword : Src
  keywordStart : Nat
deriving Repr, DecidableEq

/-- The lookahead loop that runs after the scanner has read a top-level
`public` word: skip whitespace and annotations, step over modifiers, and
when a type keyword arrives, grab the following name.  Mirrors the inner
`while (j < source.length)` loop of `getTopLevelPublicTypeDecls`.
Returns the optional declaration payload (keyword and name), the scanner
state (which `skipAnnotation` may have mutated) and the continuation
cursor. -/
def lookAfterPublic : Nat → Src → Nat → ScanState → Option (Src × Src) × ScanState × Src × Nat
  | 0, cs, pos, st => (none, st, cs, pos)
  | fuel + 1, cs, pos, st =>
    let ws := skipWhitespace cs pos
    match ws.1 with
    | [] => (none, st, ws.1, ws.2)
    | c :: _ =>
      if c = '@' then
        let anno := skipAnno ws.1 ws.2 st
        lookAfterPublic fuel anno.2.1 anno.2.2 anno.1
      else
        match readWord ws.1 ws.2 with
        | none => (none, st, ws.1, ws.2)
        | some (token, rest, next) =>
          if declModifiers.contains token then
            lookAfterPublic fuel rest next st
          else if typeKeywords.contains token then
            let ws2 := skipWhitespace rest next
            match readWord ws2.1 ws2.2 with
            | some (nm, _, _) => (some (token, nm), st, ws2.1, ws2.2)
            | none => (none, st, ws2.1, ws2.2)
          else (none, st, rest, next)

/-- The main loop of `getTopLevelPublicTypeDecls` in javaSource.ts: a
single forward pass with the comment/string state machine, counting brace
depth, and reading words at depth 0; each `public` word triggers the
lookahead.  One unit of fuel is spent per loop iteration; each iteration
of the original consumes at least one character. -/
def scanPubDecls : Nat → Src → Nat → ScanState → Nat → List PubDecl
  | 0, _, _, _, _ => []
  | _ + 1, [], _, _, _ => []
  | fuel + 1, c :: cs, pos, st, depth =>
    if st.inLineComment then
      if c = '\n' then scanPubDecls fuel cs (pos + 1) { st with inLineComment := false } depth
      else scanPubDecls fuel cs (pos + 1) st depth
    else if st.inBlockComment then
      if c = '*' && cs.head? = some '/' then
        scanPubDecls fuel cs.tail (pos + 2) { st with inBlockComment := false } depth
      else scanPubDecls fuel cs (pos + 1) st depth
    else if st.inString then
      if st.escaped then scanPubDecls fuel cs (pos + 1) { st with escaped := false } depth
      else if c = '\\' then scanPubDecls fuel cs (pos + 1) { st with escaped := true } depth
      else if c = '"' then scanPubDecls fuel cs (pos + 1) { st with inString := false } depth
      else scanPubDecls fuel cs (pos + 1) st depth
    else if st.inChar then
      if st.escaped then scanPubDecls fuel cs (pos + 1) { st with escaped := false } depth
      else if c = '\\' then scanPubDecls fuel cs (pos + 1) { st with escaped := true } depth
      else if c = squote then scanPubDecls fuel cs (pos + 1) { st with inChar := false } depth
      else scanPubDecls fuel cs (pos + 1) st depth
    else if c = '/' && cs.head? = some '/' then
      scanPubDecls fuel cs.tail (pos + 2) { st with inLineComment := true } depth
    else if c = '/' && cs.head? = some '*' then
      scanPubDecls fuel cs.tail (pos + 2) { st with inBlockComment := true } depth
    else if c = '"' then scanPubDecls fuel cs (pos + 1) { st with inString := true } depth
    else if c = squote then scanPubDecls fuel cs (pos + 1) { st with inChar := true } depth
    else if c = lbrace then scanPubDecls fuel cs (pos + 1) st (depth + 1)
    else if c = rbrace then scanPubDecls fuel cs (pos + 1) st (depth - 1)
    else if depth ≠ 0 then scanPubDecls fuel cs (pos + 1) st depth
    else if ¬ isWordStart c then scanPubDecls fuel cs (pos + 1) st depth
    else
      match readWord (c :: cs) pos with
      | none => scanPubDecls fuel cs (pos + 1) st depth
      | some (w, rest, next) =>
        if w = "public".data then
          let la := lookAfterPublic (rest.length + 1) rest next st
          match la.1 with
          | some (kw, nm) =>
            { name := nm, keyword := kw, publicStart := pos, publicEnd := pos + 6 } ::
              scanPubDecls fuel la.2.2.1 la.2.2.2 la.2.1 depth
          | none => scanPubDecls fuel la.2.2.1 la.2.2.2 la.2.1 depth
        else scanPubDecls fuel rest next st depth

/-- `getTopLevelPublicTypeDecls` of javaSource.ts. -/
def getTopLevelPublicTypeDecls (source : Src) : List PubDecl :=
  scanPubDecls (source.length + 1) source 0 ScanState.initial 0

/-- `getTopLevelPublicTypeNames` of javaSource.ts.  The source implements
this as a verbatim copy of the `getTopLevelPublicTypeDecls` scan that
pushes only the names; we model it as the projection. -/
def getTopLevelPublicTypeNames (source : Src) : List Src :=
  (getTopLevelPublicTypeDecls source).map (·.name)

/-- The main loop of `getTopLevelTypeDecls` of javaSource.ts: same state
machine, but triggered by a bare type keyword at depth 0 (no modifier or
annotation lookahead). -/
def scanTypeDecls : Nat → Src → Nat → ScanState → Nat → List TypeDecl
  | 0, _, _, _, _ => []
  | _ + 1, [], _, _, _ => []
  | fuel + 1, c :: cs, pos, st, depth =>
    if st.inLineComment then
      if c = '\n' then scanTypeDecls fuel cs (pos + 1) { st with inLineComment := false } depth
      else scanTypeDecls fuel cs (pos + 1) st depth
    else if st.inBlockComment then
      if c = '*' && cs.head? = some '/' then
        scanTypeDecls fuel cs.tail (pos + 2) { st with inBlockComment := false } depth
      else scanTypeDecls fuel cs (pos + 1) st depth
    else if st.inString then
      if st.escaped then scanTypeDecls fuel cs (pos + 1) { st with escaped := false } depth
      else if c = '\\' then scanTypeDecls fuel cs (pos + 1) { st with escaped := true } depth
      else if c = '"' then scanTypeDecls fuel cs (pos + 1) { st with inString := false } depth
      else scanTypeDecls fuel cs (pos + 1) st depth
    else if st.inChar then
      if st.escaped then scanTypeDecls fuel cs (pos + 1) { st with escaped := false } depth
      else if c = '\\' then scanTypeDecls fuel cs (pos + 1) { st with escaped := true } depth
      else if c = squote then scanTypeDecls fuel cs (pos + 1) { st with inChar := false } depth
      else scanTypeDecls fuel cs (pos + 1) st depth
    else if c = '/' && cs.head? = some '/' then
      scanTypeDecls fuel cs.tail (pos + 2) { st with inLineComment := true } depth
    else if c = '/' && cs.head? = some '*' then
      scanTypeDecls fuel cs.tail (pos + 2) { st with inBlockComment := true } depth
    else if c = '"' then scanTypeDecls fuel cs (pos + 1) { st with inString := true } depth
    else if c = squote then scanTypeDecls fuel cs (pos + 1) { st with inChar := true } depth
    else if c = lbrace then scanTypeDecls fuel cs (pos + 1) st (depth + 1)
    else if c = rbrace then scanTypeDecls fuel cs (pos + 1) st (depth - 1)
    else if depth ≠ 0 then scanTypeDecls fuel cs (pos + 1) st depth
    else if ¬ isWordStart c then scanTypeDecls fuel cs (pos + 1) st depth
    else
      match readWord (c :: cs) pos with
      | none => scanTypeDecls fuel cs (pos + 1) st depth
      | some (w, rest, next) =>
        if typeKeywords.contains w then
          let ws := skipWhitespace rest next
          match readWord ws.1 ws.2 with
          | some (nm, rest2, next2) =>
            { name := nm, keyword := w, keywordStart := pos } ::
              scanTypeDecls fuel rest2 next2 st depth
          | none => scanTypeDecls fuel ws.1 ws.2 st depth
        else scanTypeDecls fuel rest next st depth

/-- `getTopLevelTypeDecls` of javaSource.ts. -/
def getTopLevelTypeDecls (source : Src) : List TypeDecl :=
  scanTypeDecls (source.length + 1) source 0 ScanState.initial 0

/-- `stripJavaCommentsAndStrings` of javaSource.ts: blanks out comment and
string/char-literal content (newlines preserved), leaving code characters
in place. -/
def stripJavaCommentsAndStrings : Nat → Src → ScanState → Src
  | 0, _, _ => []
  | _ + 1, [], _ => []
  | fuel + 1, c :: cs, st =>
    if st.inLineComment then
      if c = '\n' then '\n' :: stripJavaCommentsAndStrings fuel cs { st with inLineComment := false }
      else ' ' :: stripJavaCommentsAndStrings fuel cs st
    else if st.inBlockComment then
      match cs with
      | c2 :: cs2 =>
        if c = '*' && c2 = '/' then
          ' ' :: ' ' :: stripJavaCommentsAndStrings fuel cs2 { st with inBlockComment := false }
        else (if c = '\n' then '\n' else ' ') :: stripJavaCommentsAndStrings fuel cs st
      | [] => (if c = '\n' then '\n' else ' ') :: stripJavaCommentsAndStrings fuel cs st
    else if st.inString then
      if st.escaped then
        (if c = '\n' then '\n' else ' ') :: stripJavaCommentsAndStrings fuel cs { st with escaped := false }
      else if c = '\\' then
        (if c = '\n' then '\n' else ' ') :: stripJavaCommentsAndStrings fuel cs { st with escaped := true }
      else if c = '"' then
        ' ' :: stripJavaCommentsAndStrings fuel cs { st with inString := false }
      else (if c = '\n' then '\n' else ' ') :: stripJavaCommentsAndStrings fuel cs st
    else if st.inChar then
      if st.escaped then
        (if c = '\n' then '\n' else ' ') :: stripJavaCommentsAndStrings fuel cs { st with escaped := false }
      else if c = '\\' then
        (if c = '\n' then '\n' else ' ') :: stripJavaCommentsAndStrings fuel cs { st with escaped := true }
      else if c = squote then
        ' ' :: stripJavaCommentsAndStrings fuel cs { st with inChar := false }
      else (if c = '\n' then '\n' else ' ') :: stripJavaCommentsAndStrings fuel cs st
    else
      match cs with
      | c2 :: cs2 =>
        if c = '/' && c2 = '/' then
          ' ' :: ' ' :: stripJavaCommentsAndStrings fuel cs2 { st with inLineComment := true }
        else if c = '/' && c2 = '*' then
          ' ' :: ' ' :: stripJavaCommentsAndStrings fuel cs2 { st with inBlockComment := true }
        else if c = '"' then ' ' :: stripJavaCommentsAndStrings fuel cs { st with inString := true }
        else if c = squote then ' ' :: stripJavaCommentsAndStrings fuel cs { st with inChar := true }
        else c :: stripJavaCommentsAndStrings fuel cs st
      | [] =>
        if c = '"' then ' ' :: stripJavaCommentsAndStrings fuel cs { st with inString := true }
        else if c = squote then ' ' :: stripJavaCommentsAndStrings fuel cs { st with inChar := true }
        else c :: stripJavaCommentsAndStrings fuel cs st

/-- Wrapper for `stripJavaCommentsAndStrings` starting from the clear
state. -/
def stripJava (source : Src) : Src :=
  stripJavaCommentsAndStrings (source.length + 1) source ScanState.initial

/-! ## javaRewrite.ts — mechanical rewrites -/

/-- Result record of `demoteExtraTopLevelPublicTypes`; the optional fields
are absent (`none` / `[]`) on the no-op paths, as in the source. -/
structure DemoteResult where
  source : Src
  changed : Bool
  keptName : Option Src
  demotedNames : List Src
deriving Repr, DecidableEq

/-- `chooseKeptDecl` of javaRewrite.ts: `keepName` when it names a
declaration (and is a non-empty string — `if (keepName)` is a JavaScript
truthiness test), else the first non-interface declaration, else the first
declaration. -/
def chooseKeptDecl (decls : List PubDecl) (keepName : Option Src) : Option PubDecl :=
  let exact : Option PubDecl :=
    match keepName with
    | some k => if k ≠ [] then decls.find? (fun d => d.name = k) else none
    | none => none
  match exact with
  | some d => some d
  | none =>
    match decls.find? (fun d => d.keyword ≠ "interface".data) with
    | some d => some d
    | none => decls.head?

/-- One demotion step: delete the `public` token of the declaration plus
any directly following spaces/tabs (`removeEnd` scan of the source). -/
def demoteOne (out : Src) (d : PubDecl) : Src :=
  let after := out.drop d.publicEnd
  let pad := after.takeWhile (fun c => c = ' ' || c = '\t')
  out.take d.publicStart ++ after.drop pad.length

/-- Stable insertion (descending by `publicStart`) used to model the
JavaScript `sort((a, b) => b.publicStart - a.publicStart)`. -/
def insertDescStart (d : PubDecl) : List PubDecl → List PubDecl
  | [] => [d]
  | e :: es => if e.publicStart < d.publicStart then d :: e :: es else e :: insertDescStart d es

/-- Stable descending sort by `publicStart` (JavaScript `Array.sort` is
stable). -/
def sortDescStart : List PubDecl → List PubDecl
  | [] => []
  | d :: ds => insertDescStart d (sortDescStart ds)

/-- `demoteExtraTopLevelPublicTypes` of javaRewrite.ts. -/
def demoteExtraTopLevelPublicTypes (source : Src) (keepName : Option Src) : DemoteResult :=
  let decls := getTopLevelPublicTypeDecls source
  if decls.length ≤ 1 then ⟨source, false, none, []⟩
  else
    match chooseKeptDecl decls keepName with
    | none => ⟨source, false, none, []⟩
    | some kept =>
      let toDemote := decls.filter (fun d => d.name ≠ kept.name)
      if toDemote.isEmpty then ⟨source, false, none, []⟩
      else
        let ordered := sortDescStart toDemote
        let out := ordered.foldl demoteOne source
        ⟨out, out ≠ source, some kept.name, ordered.map (·.name)⟩

/-- Result record of `promoteOneTopLevelTypeToPublic`. -/
structure PromoteResult where
  source : Src
  changed : Bool
  promotedName : Option Src
deriving Repr, DecidableEq

/-- `choosePromotedDecl` of javaRewrite.ts (same selection policy as
`chooseKeptDecl`, over all top-level type declarations). -/
def choosePromotedDecl (decls : List TypeDecl) (keepName : Option Src) : Option TypeDecl :=
  let exact : Option TypeDecl :=
    match keepName with
    | some k => if k ≠ [] then decls.find? (fun d => d.name = k) else none
    | none => none
  match exact with
  | some d => some d
  | none =>
    match decls.find? (fun d => d.keyword ≠ "interface".data) with
    | some d => some d
    | none => decls.head?

/-- `promoteOneTopLevelTypeToPublic` of javaRewrite.ts: when no top-level
public type exists, insert `public ` before the keyword of the chosen
declaration. -/
def promoteOneTopLevelTypeToPublic (source : Src) (keepName : Option Src) : PromoteResult :=
  let publicDecls := getTopLevelPublicTypeDecls source
  if publicDecls.length ≥ 1 then ⟨source, false, none⟩
  else
    let decls := getTopLevelTypeDecls source
    match choosePromotedDecl decls keepName with
    | none => ⟨source, false, none⟩
    | some chosen =>
      let out := source.take chosen.keywordStart ++ "public ".data ++ source.drop chosen.keywordStart
      ⟨out, out ≠ source, some chosen.name⟩

/-- Result record of `rewriteJavaTopLevelPublicClassName`. -/
structure RenameResult where
  source : Src
  changed : Bool
  previousName : Option Src
deriving Repr, DecidableEq

/-- Literal-prefix matcher: returns the rest of the text after the given
literal. -/
def litP : Src → Src → Option Src
  | [], cs => some cs
  | _ :: _, [] => none
  | p :: ps, c :: cs => if p = c then litP ps cs else none

/-- Attempts the regex `public\s+class\s+([A-Za-z_][A-Za-z0-9_]*)` at the
head of the text, returning the match length and the captured name.  (The
leading `\b` is checked by the caller; the final `\b` is automatic because
the name capture is greedy.) -/
def matchPublicClassAt (cs : Src) : Option (Nat × Src) :=
  match litP "public".data cs with
  | none => none
  | some r1 =>
    let sp1 := r1.takeWhile isJsSpace
    if sp1.length = 0 then none
    else
      match litP "class".data (r1.drop sp1.length) with
      | none => none
      | some r2 =>
        let sp2 := r2.takeWhile isJsSpace
        if sp2.length = 0 then none
        else
          match r2.drop sp2.length with
          | [] => none
          | c :: rest =>
            if isWordStart c then
              let w := rest.takeWhile isWordChar
              some (6 + sp1.length + 5 + sp2.length + 1 + w.length, c :: w)
            else none

/-- First match of `\bpublic\s+class\s+([A-Za-z_][A-Za-z0-9_]*)\b`:
start index, match length and captured class name. -/
def findPublicClass : Src → Option Char → Nat → Option (Nat × Nat × Src)
  | [], _, _ => none
  | c :: cs, prev, pos =>
    let boundary := match prev with
      | some pc => ! isWordChar pc
      | none => true
    if boundary then
      match matchPublicClassAt (c :: cs) with
      | some (len, nm) => some (pos, len, nm)
      | none => findPublicClass cs (some c) (pos + 1)
    else findPublicClass cs (some c) (pos + 1)

/-- The three access modifiers of the constructor-rename regex, in
alternation order. -/
def ctorModifiers : List Src :=
  ["public".data, "protected".data, "private".data]

/-- Attempts `(\s*)(public|protected|private)?\s*X\s*\(` at the head of
the text (the `(^|\n)` anchor was consumed by the caller); on success
returns the replacement body `p2 ++ (modifier ++ " ")? ++ expected ++ "("`
and the rest of the text after the consumed `(`. -/
def ctorMatchBody (x expected cs : Src) : Option (Src × Src) :=
  let p2 := cs.takeWhile isJsSpace
  let rest2 := cs.drop p2.length
  let tryWith : Option Src → Option (Src × Src) := fun mod =>
    let afterMod : Option Src :=
      match mod with
      | some m =>
        match litP m rest2 with
        | some r => some (r.dropWhile isJsSpace)
        | none => none
      | none => some (rest2.dropWhile isJsSpace)
    match afterMod with
    | none => none
    | some r =>
      match litP x r with
      | none => none
      | some r2 =>
        match r2.dropWhile isJsSpace with
        | '(' :: r3 =>
          some (p2 ++ (match mod with | some m => m ++ [' '] | none => []) ++ expected ++ ['('], r3)
        | _ => none
  match tryWith (some "public".data) with
  | some r => some r
  | none =>
    match tryWith (some "protected".data) with
    | some r => some r
    | none =>
      match tryWith (some "private".data) with
      | some r => some r
      | none => tryWith none

/-- Global replacement pass of the constructor-rename regex
`(^|\n)(\s*)(public|protected|private)?\s*X\s*\(`, replacing each match
with `p1 p2 (modifier " ")? expected (`.  `atAnchor` is true at the start
of the string; afterwards only a consumed newline re-anchors. -/
def ctorReplaceGo : Nat → Src → Src → Src → Bool → Src
  | 0, cs, _, _, _ => cs
  | _ + 1, [], _, _, _ => []
  | fuel + 1, c :: cs, x, expected, atAnchor =>
    if atAnchor then
      match ctorMatchBody x expected (c :: cs) with
      | some (rep, rest) => rep ++ ctorReplaceGo fuel rest x expected false
      | none =>
        if c = '\n' then
          match ctorMatchBody x expected cs with
          | some (rep, rest) => '\n' :: (rep ++ ctorReplaceGo fuel rest x expected false)
          | none => c :: ctorReplaceGo fuel cs x expected false
        else c :: ctorReplaceGo fuel cs x expected false
    else if c = '\n' then
      match ctorMatchBody x expected cs with
      | some (rep, rest) => '\n' :: (rep ++ ctorReplaceGo fuel rest x expected false)
      | none => c :: ctorReplaceGo fuel cs x expected false
    else c :: ctorReplaceGo fuel cs x expected false

/-- All-occurrences constructor rename. -/
def ctorReplaceAll (src x expected : Src) : Src :=
  ctorReplaceGo (src.length + 1) src x expected true

/-- `rewriteJavaTopLevelPublicClassName` of javaRewrite.ts. -/
def rewriteJavaTopLevelPublicClassName (source expectedName : Src) : RenameResult :=
  let expected := jsTrim expectedName
  if expected = [] then ⟨source, false, none⟩
  else
    match findPublicClass source none 0 with
    | none => ⟨source, false, none⟩
    | some (p, len, prev) =>
      if prev = expected then ⟨source, false, none⟩
      else
        let out1 := source.take p ++ "public class ".data ++ expected ++ source.drop (p + len)
        let out2 := ctorReplaceAll out1 prev expected
        ⟨out2, out2 ≠ source, some prev⟩

/-! ## Helper lemmas about the rewrite selection -/

/-- The difficulty levels of an ActivitySpec. -/
inductive Difficulty where
  | easy
  | medium
  | hard
deriving Repr, DecidableEq

/-- The comparator key of `expandDifficultySlots`
(`order: Record<Difficulty, number> = \x7b easy: 0, medium: 1, hard: 2 \x7d`). -/
def difficultyOrder : Difficulty → Nat
  | .easy => 0
  | .medium => 1
  | .hard => 2

/-- One entry of `difficulty_plan`. -/
structure DifficultyPlanEntry where
  difficulty : Difficulty
  count : Nat
deriving Repr, DecidableEq

/-- The pedagogy policy as far as the planner reads it (`mode` and
`focus_concepts`; the remaining fields only populate the slots' optional
pedagogy metadata, which no claim concerns and which we do not model). -/
structure PedagogyPolicy where
  mode : Src
  focus_concepts : Option (List Src)
deriving Repr, DecidableEq

/-- The ActivitySpec fields the planner reads (§3 of the spec). -/
structure ActivitySpec where
  language : Src
  problem_count : Nat
  difficulty_plan : List DifficultyPlanEntry
  topic_tags : List Src
  problem_style : Src
  constraints : Src
  test_case_count : Nat
deriving Repr, DecidableEq

/-- A problem slot as produced by the planner (pedagogy metadata
omitted). -/
structure ProblemSlot where
  index : Nat
  difficulty : Difficulty
  topics : List Src
  language : Src
  problem_style : Src
  constraints : Src
  test_case_count : Nat
deriving Repr, DecidableEq

/-- `expandDifficultySlots` of planner.ts: sort `difficulty_plan` by the
fixed order easy < medium < hard (JavaScript `Array.sort` is stable, and a
stable sort by a three-valued key is the concatenation of the three
key-classes in original order), then expand each entry into `count`
copies of its difficulty. -/
def expandDifficultySlots (spec : ActivitySpec) : List Difficulty :=
  let sorted := spec.difficulty_plan.filter (fun e => e.difficulty = Difficulty.easy) ++
    spec.difficulty_plan.filter (fun e => e.difficulty = Difficulty.medium) ++
    spec.difficulty_plan.filter (fun e => e.difficulty = Difficulty.hard)
  sorted.flatMap (fun item => List.replicate item.count item.difficulty)

/-- The per-slot topic assignment of `distributeTopics` in planner.ts:
primary topic by round-robin; for hard slots with at least two tags also
the next round-robin candidate distinct from the primary, falling back to
the candidate after it, else no secondary.  JavaScript truthiness of a
string (`secondaryCandidate && ...`) is the non-emptiness test. -/
def topicsForSlot (tags : List Src) (difficulty : Difficulty) (i : Nat) : List Src :=
  let primary := tags.getD (i % tags.length) []
  if difficulty = Difficulty.hard ∧ 2 ≤ tags.length then
    let c1 := tags.getD ((i + 1) % tags.length) []
    let c2 := tags.getD ((i + 2) % tags.length) []
    let secondary : Option Src :=
      if c1 ≠ [] ∧ c1 ≠ primary then some c1
      else if c2 ≠ [] ∧ c2 ≠ primary then some c2
      else none
    match secondary with
    | some s => [primary, s]
    | none => [primary]
  else [primary]

/-- The assignment loop of `distributeTopics` (one iteration per slot;
`i` is the slot index).  The `!primary` throw of the source is the
emptiness check; the difficulty passed in is `difficulties[i]`, which the
source reads as `difficulties[i] ?? "easy"` (always in bounds here). -/
def distributeTopicsGo (tags : List Src) : List Difficulty → Nat → Except String (List (List Src))
  | [], _ => .ok []
  | d :: ds, i =>
    let primary := tags.getD (i % tags.length) []
    if primary = [] then .error "Failed to assign topic to slot."
    else
      match distributeTopicsGo tags ds (i + 1) with
      | .ok rest => .ok (topicsForSlot tags d i :: rest)
      | .error e => .error e

/-- `distributeTopics` of planner.ts. -/
def distributeTopics (spec : ActivitySpec) (difficulties : List Difficulty)
    (focusConcepts : Option (List Src)) : Except String (List (List Src)) :=
  let focus := match focusConcepts with
    | some fc => fc.filter (fun t => spec.topic_tags.contains t)
    | none => []
  let tags := if focus.isEmpty then spec.topic_tags else focus
  if tags.isEmpty then .error "topic_tags cannot be empty when deriving ProblemPlan."
  else distributeTopicsGo tags difficulties 0

/-- Modelled from the spec: `ProblemPlanSchema.safeParse` of
planner/types.ts is not among the sources; per §3 of the spec a
ProblemSlot carries 1 or 2 topic strings, which is the shape property the
derivation could conceivably violate, so the schema is modelled as that
check. -/
def problemPlanSchemaOk (slots : List ProblemSlot) : Bool :=
  slots.all (fun s => 1 ≤ s.topics.length && s.topics.length ≤ 2)

/-- `deriveProblemPlan` of planner.ts. -/
def deriveProblemPlan (spec : ActivitySpec) (policy : Option PedagogyPolicy) :
    Except String (List ProblemSlot) :=
  if spec.problem_count < 1 ∨ 7 < spec.problem_count then
    .error "problem_count must be between 1 and 7."
  else
    let difficulties := expandDifficultySlots spec
    if difficulties.length ≠ spec.problem_count then
      .error "Difficulty expansion failed."
    else
      let focus : List Src := match policy with
        | some p => if p.mode = "guided".data then p.focus_concepts.getD [] else []
        | none => []
      match distributeTopics spec difficulties (some focus) with
      | .error e => .error e
      | .ok topicAssignments =>
        let slots := difficulties.mapIdx (fun index difficulty =>
          { index := index, difficulty := difficulty,
            topics := topicAssignments.getD index [],
            language := spec.language, problem_style := spec.problem_style,
            constraints := spec.constraints, test_case_count := spec.test_case_count })
        if problemPlanSchemaOk slots then .ok slots
        else .error "Invalid ProblemPlan."

/-! ## Planner lemmas -/

/-- The three problem styles of `normalizeProblemStyle` ("return" is a
Lean keyword, hence `returnStyle`). -/
inductive ProblemStyle where
  | stdout
  | returnStyle
  | mixed
deriving Repr, DecidableEq

/-- `normalizeProblemStyle` of testStrengthGate.ts: trim + lowercase,
exact match first, then `includes` fallbacks, defaulting to return. -/
def normalizeProblemStyle (raw : Src) : ProblemStyle :=
  let s := jsToLower (jsTrim raw)
  if s = "stdout".data then ProblemStyle.stdout
  else if s = "return".data then ProblemStyle.returnStyle
  else if s = "mixed".data then ProblemStyle.mixed
  else if containsSub "stdout".data s then ProblemStyle.stdout
  else if containsSub "mixed".data s then ProblemStyle.mixed
  else ProblemStyle.returnStyle

/-- A judge request: either a files-based workspace request or a
single-source request, each with the test suite. -/
inductive JudgeRequest where
  | files (files : List (Src × Src)) (testSuite : Src)
  | code (code : Src) (testSuite : Src)
deriving Repr, DecidableEq

/-- The only field of a judge result the gate reads. -/
structure JudgeResult where
  success : Bool
deriving Repr, DecidableEq

structure Baseline where
  id : Src
  request : JudgeRequest
deriving Repr, DecidableEq

/-- One file of a java workspace draft. -/
structure WorkspaceFile where
  path : Src
  content : Src
deriving Repr, DecidableEq

/-- The fields of `GeneratedProblemDraft` that `buildBaselines` reads;
`workspace = some fs` models a draft with `"workspace" in draft`. -/
structure GeneratedProblemDraft where
  language : Src
  starter_code : Src
  test_suite : Src
  reference_solution : Src
  workspace : Option (List WorkspaceFile)
deriving Repr, DecidableEq

/-- The character class `[\w:<>\s*&]` of the cpp solve-signature regex. -/
def cppTypeClassChar (c : Char) : Bool :=
  isWordChar c || c = ':' || c = '<' || c = '>' || c = '*' || c = '&' || isJsSpace c

/-- After the closing paren of the parameter list: `\s*(?:const\s*)?\x7b`.
The optional group is tried greedily (const first); when the text starts
with "const" but no brace follows, the empty alternative also fails
because the brace would have to stand where the c of const stands. -/
def cppAfterParams (cs : Src) : Bool :=
  let cs1 := cs.dropWhile isJsSpace
  if startsWithSub "const".data cs1 then
    match (cs1.drop 5).dropWhile isJsSpace with
    | c :: _ => c = lbrace
    | [] => false
  else
    match cs1 with
    | c :: _ => c = lbrace
    | [] => false

/-- The lazy parameter group `([\s\S]*?)\)` with its continuation: stop at
the first closing paren whose continuation matches, extending the group
past that paren on failure (JavaScript lazy-star backtracking). -/
def cppMatchParams : Src → Src → Option Src
  | _, [] => none
  | acc, c :: rest =>
    if c = ')' then
      if cppAfterParams rest then some acc.reverse
      else cppMatchParams (c :: acc) rest
    else cppMatchParams (c :: acc) rest

/-- The continuation after the return-type group:
`\s+solve\s*\(([\s\S]*?)\)...`; the greedy `\s+` cannot give back
characters usefully because "solve" does not start with whitespace. -/
def cppMatchCont (cs : Src) : Option Src :=
  match cs with
  | c :: rest =>
    if isJsSpace c then
      let cs2 := rest.dropWhile isJsSpace
      if startsWithSub "solve".data cs2 then
        match (cs2.drop 5).dropWhile isJsSpace with
        | '(' :: cs4 => cppMatchParams [] cs4
        | _ => none
      else none
    else none
  | [] => none

/-- The lazy return-type tail `[\w:<>\s*&]+?`: at least one class
character, trying the continuation after each further character
(shortest first). -/
def cppMatchType (c0 : Char) : Src → Src → Option (Src × Src)
  | _, [] => none
  | acc, c :: rest =>
    if cppTypeClassChar c then
      match cppMatchCont rest with
      | some params => some (c0 :: (c :: acc).reverse, params)
      | none => cppMatchType c0 (c :: acc) rest
    else none

/-- A match attempt at one position: `\s*([A-Za-z_][\w:<>\s*&]+?)` then
the solve continuation.  The greedy `\s*` is maximal because the group
must start with a non-space character. -/
def cppMatchHead (cs : Src) : Option (Src × Src) :=
  match cs.dropWhile isJsSpace with
  | [] => none
  | c0 :: rest =>
    if isAsciiLetter c0 || c0 = '_' then cppMatchType c0 [] rest
    else none

/-- The scan of `reSameLine.exec`: positions are tried left to right; at
each, the alternation `(^|\n)` first asserts a line start (start of text
or after a newline, the regex has the m flag), then tries consuming a
newline. -/
def cppFindSolve : Src → Option Char → Option (Src × Src)
  | cs, prev =>
    match (if prev = none ∨ prev = some '\n' then cppMatchHead cs else none) with
    | some r => some r
    | none =>
      match (match cs with
          | '\n' :: rest => cppMatchHead rest
          | _ => none) with
      | some r => some r
      | none =>
        match cs with
        | [] => none
        | c :: rest => cppFindSolve rest (some c)

/-- JavaScript `replace(/\s+/g, " ")`: collapse every whitespace run to a
single space. -/
def normSpacesGo (prevSpace : Bool) : Src → Src
  | [] => []
  | c :: cs =>
    if isJsSpace c then
      if prevSpace then normSpacesGo true cs
      else ' ' :: normSpacesGo true cs
    else c :: normSpacesGo false cs

def normSpaces (s : Src) : Src := normSpacesGo false s

/-- `extractCppSolveSignature` of testStrengthGate.ts.  `params == null`
cannot hold when the regex matched (group 3 always participates), so only
the return-type truthiness check remains. -/
def extractCppSolveSignature (referenceSolution : Src) : Option Src :=
  if jsTrim referenceSolution = [] then none
  else
    match cppFindSolve referenceSolution none with
    | none => none
    | some (rawType, rawParams) =>
      let returnType := jsTrim (normSpaces rawType)
      let params := jsTrim (normSpaces rawParams)
      if returnType = [] then none
      else some (returnType ++ " solve(".data ++ params ++ ")".data)

/-- JavaScript `s.split(sep)[0]` for a non-empty separator: the prefix
before the first occurrence, or all of `s` when absent. -/
def splitFirstPrefix (sep : Src) : Src → Src
  | [] => []
  | c :: cs => if startsWithSub sep (c :: cs) then [] else c :: splitFirstPrefix sep cs

/-- `\bw\b` for a word `w` made of word characters: an occurrence with no
word character on either side (`prev` is the character before the current
position). -/
def containsWord (w : Src) : Src → Option Char → Bool
  | [], _ => startsWithSub w []
  | c :: rest, prev =>
    (startsWithSub w (c :: rest) &&
      (match prev with
        | some p => ! isWordChar p
        | none => true) &&
      (match (c :: rest).drop w.length with
        | c2 :: _ => ! isWordChar c2
        | [] => true)) ||
    containsWord w rest (some c)

/-- `buildCppBaselineFromSignature` of testStrengthGate.ts. -/
def buildCppBaselineFromSignature (signature : Src) (style : ProblemStyle) : Src :=
  let returnType := jsTrim (splitFirstPrefix " solve(".data signature)
  let isVoid := containsWord "void".data returnType none
  let wantsStdout := style = ProblemStyle.stdout ∨ style = ProblemStyle.mixed
  let maybeStdout := if wantsStdout then "  std::cout << 0 << \"\\n\";\n".data else []
  let body := maybeStdout ++
    (if isVoid then "  return;\n".data else "  return \x7b\x7d;\n".data)
  "#include <bits/stdc++.h>\nusing namespace std;\n\n".data ++ signature ++
    " \x7b\n".data ++ body ++ "\x7d\n".data

/-- `buildPythonBaseline` of testStrengthGate.ts. -/
def buildPythonBaseline (style : ProblemStyle) : Src :=
  match style with
  | ProblemStyle.stdout => "def solve(*args, **kwargs):\n    print(0)\n".data
  | ProblemStyle.mixed => "def solve(*args, **kwargs):\n    print(0)\n    return 0\n".data
  | ProblemStyle.returnStyle => "def solve(*args, **kwargs):\n    return 0\n".data

def buildSqlBaselineQuery : Src := "SELECT 1;".data

/-- `buildBaselines` of testStrengthGate.ts.  `Object.fromEntries` over
the workspace files is modelled as the path/content pair list. -/
def buildBaselines (draft : GeneratedProblemDraft) (slot : ProblemSlot) : List Baseline :=
  let style := normalizeProblemStyle slot.problem_style
  if draft.language = "java".data then
    match draft.workspace with
    | some ws =>
      [⟨"starter_workspace".data,
        JudgeRequest.files (ws.map (fun f => (f.path, f.content))) draft.test_suite⟩]
    | none =>
      [⟨"starter_code".data, JudgeRequest.code draft.starter_code draft.test_suite⟩]
  else if draft.language = "python".data then
    [⟨"starter_code".data, JudgeRequest.code draft.starter_code draft.test_suite⟩,
      ⟨"trivial_baseline".data,
        JudgeRequest.code (buildPythonBaseline style) draft.test_suite⟩]
  else if draft.language = "cpp".data then
    match extractCppSolveSignature draft.reference_solution with
    | some sig =>
      [⟨"starter_code".data, JudgeRequest.code draft.starter_code draft.test_suite⟩,
        ⟨"trivial_baseline".data,
          JudgeRequest.code (buildCppBaselineFromSignature sig style) draft.test_suite⟩]
    | none =>
      [⟨"starter_code".data, JudgeRequest.code draft.starter_code draft.test_suite⟩]
  else
    [⟨"starter_code".data, JudgeRequest.code draft.starter_code draft.test_suite⟩,
      ⟨"trivial_baseline".data, JudgeRequest.code buildSqlBaselineQuery draft.test_suite⟩]

/-- The payload of a thrown `TestStrengthGateError`. -/
structure TestStrengthGateError where
  message : Src
  baselineId : Src
deriving Repr, DecidableEq

/-- The baseline loop of `runTestStrengthGate`: the first baseline whose
judge result has success=true aborts the gate with a
`TestStrengthGateError` naming it. -/
def runTestStrengthGateGo (judge : JudgeRequest → JudgeResult) :
    List Baseline → Except TestStrengthGateError Unit
  | [] => Except.ok ()
  | b :: bs =>
    if (judge b.request).success then
      Except.error ⟨"Test strength gate failed: baseline \"".data ++ b.id ++
        "\" passed the test suite.".data, b.id⟩
    else runTestStrengthGateGo judge bs

/-- `runTestStrengthGate` of testStrengthGate.ts, the judge adapter
passed as a function (its `judge` call is the only use). -/
def runTestStrengthGate (judge : JudgeRequest → JudgeResult)
    (draft : GeneratedProblemDraft) (slot : ProblemSlot) :
    Except TestStrengthGateError Unit :=
  runTestStrengthGateGo judge (buildBaselines draft slot)

/-- `[A-Za-z_]`, the first character of the identifier captures. -/
def isIdentStart (c : Char) : Bool := isAsciiLetter c || c = '_'

/-- Greedy `([A-Za-z_][A-Za-z0-9_]*)` capture: the identifier and the
rest of the input; the trailing `\b` is automatic because the munch is
maximal. -/
def takeIdent : Src → Option (Src × Src)
  | [] => none
  | c :: cs =>
    if isIdentStart c then some (c :: cs.takeWhile isWordChar, cs.dropWhile isWordChar)
    else none

/-- Greedy `\w+` when only the rest matters. -/
def takeWord1 : Src → Option Src
  | [] => none
  | c :: cs => if isWordChar c then some (cs.dropWhile isWordChar) else none

/-- Greedy `\s+`: at least one whitespace character, maximal munch
(sound whenever the next regex element cannot match whitespace). -/
def skipSpaces1 : Src → Option Src
  | [] => none
  | c :: cs => if isJsSpace c then some (cs.dropWhile isJsSpace) else none

/-- `\b` on the left of a word character: the preceding character, when
there is one, is not a word character. -/
def noWordBefore (prev : Option Char) : Bool :=
  match prev with
  | some p => ! isWordChar p
  | none => true

/-- Leftmost regex search: try a match attempt at every position, left to
right, tracking the previous character for `\b`. -/
def scanFirst {α : Type} (attempt : Src → Option Char → Option α) :
    Src → Option Char → Option α
  | [], prev => attempt [] prev
  | c :: rest, prev =>
    match attempt (c :: rest) prev with
    | some r => some r
    | none => scanFirst attempt rest (some c)

/-- Global regex search (`g` flag): collect every match, resuming after
each match end (`lastIndex`); every match used here consumes at least one
character, so fuel `length + 1` suffices. -/
def scanAll {α : Type} (attempt : Src → Option Char → Option (α × Src × Option Char)) :
    Nat → Src → Option Char → List α
  | 0, _, _ => []
  | fuel + 1, cs, prev =>
    match attempt cs prev with
    | some (a, rest, newPrev) => a :: scanAll attempt fuel rest newPrev
    | none =>
      match cs with
      | [] => []
      | c :: rest => scanAll attempt fuel rest (some c)

/-- `Array.from(new Set(xs))`: first occurrences in order. -/
def dedupGo {α : Type} [DecidableEq α] : List α → List α → List α
  | _, [] => []
  | seen, x :: xs => if x ∈ seen then dedupGo seen xs else x :: dedupGo (x :: seen) xs

def dedup {α : Type} [DecidableEq α] (l : List α) : List α := dedupGo [] l

/-- JavaScript `String.prototype.split` on a single character. -/
def splitOn (sep : Char) : Src → List Src
  | [] => [[]]
  | c :: cs =>
    if c = sep then [] :: splitOn sep cs
    else
      match splitOn sep cs with
      | [] => [[c]]
      | p :: ps => (c :: p) :: ps

/-- `normalizeTopic` of structuralTopics.ts: trim, lowercase, strip every
character outside `[a-z0-9\s_-]`. -/
def normalizeTopic (raw : Src) : Src :=
  (jsToLower (jsTrim raw)).filter (fun c =>
    decide ('a' ≤ c ∧ c ≤ 'z') || decide ('0' ≤ c ∧ c ≤ '9') || isJsSpace c ||
      decide (c = '_') || decide (c = '-'))

inductive StructuralTopic where
  | polymorphism
  | inheritance
  | abstraction
  | encapsulation
  | composition
deriving Repr, DecidableEq

def structuralTopicKey : StructuralTopic → Src
  | StructuralTopic.polymorphism => "polymorphism".data
  | StructuralTopic.inheritance => "inheritance".data
  | StructuralTopic.abstraction => "abstraction".data
  | StructuralTopic.encapsulation => "encapsulation".data
  | StructuralTopic.composition => "composition".data

/-- `hasStructuralTopic` of structuralTopics.ts. -/
def hasStructuralTopic (topics : List Src) (topic : StructuralTopic) : Bool :=
  topics.any (fun t => containsSub (structuralTopicKey topic) (normalizeTopic t))

/-- `requiredStructuralTopics` of structuralTopics.ts: fixed probe order
(polymorphism first), deduplicated. -/
def requiredStructuralTopics (topics : List Src) : List StructuralTopic :=
  dedup
    ((if hasStructuralTopic topics StructuralTopic.polymorphism then
        [StructuralTopic.polymorphism] else []) ++
      (if hasStructuralTopic topics StructuralTopic.inheritance then
        [StructuralTopic.inheritance] else []) ++
      (if hasStructuralTopic topics StructuralTopic.abstraction then
        [StructuralTopic.abstraction] else []) ++
      (if hasStructuralTopic topics StructuralTopic.encapsulation then
        [StructuralTopic.encapsulation] else []) ++
      (if hasStructuralTopic topics StructuralTopic.composition then
        [StructuralTopic.composition] else []))

structure ClassEntry where
  name : Src
  extendsName : Option Src
  implementsNames : List Src
deriving Repr, DecidableEq

structure JavaTypeIndex where
  publicClassName : Option Src
  interfaces : List Src
  abstractClasses : List Src
  classes : List ClassEntry
deriving Repr, DecidableEq

/-- One attempt of `/\bKW\s+([A-Za-z_][A-Za-z0-9_]*)\b/`. -/
def matchKwIdent (kw : Src) (cs : Src) (prev : Option Char) :
    Option (Src × Src × Option Char) :=
  if noWordBefore prev && startsWithSub kw cs then
    match skipSpaces1 (cs.drop kw.length) with
    | none => none
    | some cs1 =>
      match takeIdent cs1 with
      | some (name, rest) => some (name, rest, name.getLast?)
      | none => none
  else none

/-- One attempt of `/\bKW1\s+KW2\s+([A-Za-z_][A-Za-z0-9_]*)\b/`. -/
def matchKw2Ident (kw1 kw2 : Src) (cs : Src) (prev : Option Char) :
    Option (Src × Src × Option Char) :=
  if noWordBefore prev && startsWithSub kw1 cs then
    match skipSpaces1 (cs.drop kw1.length) with
    | none => none
    | some cs1 =>
      if startsWithSub kw2 cs1 then
        match skipSpaces1 (cs1.drop kw2.length) with
        | none => none
        | some cs2 =>
          match takeIdent cs2 with
          | some (name, rest) => some (name, rest, name.getLast?)
          | none => none
      else none
  else none

/-- One attempt of the class-declaration regex of `indexJavaTypes`:
`\bclass\s+(ID)\b(?:\s+extends\s+(ID))?(?:\s+implements\s+([^\x7b]+))?\s*\x7b`
(g flag).  The optional groups cannot backtrack usefully: when a greedy
branch parses, the skipped alternative always fails on the same text, and
the greedy `[^\x7b]+` runs to the first brace with the trailing `\s*`
empty. -/
def matchClassDecl (cs : Src) (prev : Option Char) :
    Option (ClassEntry × Src × Option Char) :=
  if noWordBefore prev && startsWithSub "class".data cs then
    match skipSpaces1 (cs.drop 5) with
    | none => none
    | some cs1 =>
      match takeIdent cs1 with
      | none => none
      | some (name, cs2) =>
        let ext : Option (Src × Src) :=
          match skipSpaces1 cs2 with
          | none => none
          | some t =>
            if startsWithSub "extends".data t then
              match skipSpaces1 (t.drop 7) with
              | none => none
              | some t2 => takeIdent t2
            else none
        let extendsName : Option Src := ext.map (fun r => r.1)
        let cs3 : Src := match ext with
          | some (_, r) => r
          | none => cs2
        let impl : Option (Src × Src) :=
          match skipSpaces1 cs3 with
          | none => none
          | some t =>
            if startsWithSub "implements".data t then
              match skipSpaces1 (t.drop 10) with
              | none => none
              | some t2 =>
                let seg := t2.takeWhile (fun c => c ≠ lbrace)
                if seg = [] then none
                else
                  match t2.drop seg.length with
                  | [] => none
                  | r => some (seg, r)
            else none
        let implementsRaw : Src := (impl.map (fun r => r.1)).getD []
        let cs4 : Src := match impl with
          | some (_, r) => r
          | none => cs3
        match cs4.dropWhile isJsSpace with
        | c :: cs5 =>
          if c = lbrace then
            some (⟨name, extendsName,
              ((splitOn ',' implementsRaw).map jsTrim).filter (fun x => decide (x ≠ []))⟩,
              cs5, some lbrace)
          else none
        | [] => none
  else none

/-- `indexJavaTypes` of structuralTopics.ts. -/
def indexJavaTypes (source : Src) : JavaTypeIndex :=
  { publicClassName :=
      (scanFirst (matchKw2Ident "public".data "class".data) source none).map (fun r => r.1),
    interfaces :=
      dedup (scanAll (matchKwIdent "interface".data) (source.length + 1) source none),
    abstractClasses :=
      dedup (scanAll (matchKw2Ident "abstract".data "class".data) (source.length + 1)
        source none),
    classes := scanAll matchClassDecl (source.length + 1) source none }

/-- `pickStatefulPrimaryClass` of structuralTopics.ts. -/
def pickStatefulPrimaryClass (index : JavaTypeIndex) : Option Src :=
  match index.publicClassName with
  | some n =>
    if n ≠ [] ∧ n ≠ "Main".data then some n
    else (index.classes.map (fun c => c.name)).find?
      (fun n2 => decide (n2 ≠ [] ∧ n2 ≠ "Main".data))
  | none =>
    (index.classes.map (fun c => c.name)).find?
      (fun n2 => decide (n2 ≠ [] ∧ n2 ≠ "Main".data))

/-- `pickBaseType` of structuralTopics.ts: first interface, else first
abstract class. -/
def pickBaseType (index : JavaTypeIndex) : Option Src :=
  match index.interfaces.head? with
  | some b => some b
  | none => index.abstractClasses.head?

/-- `findImplementations` of structuralTopics.ts. -/
def findImplementations (index : JavaTypeIndex) (base : Src) : List Src :=
  dedup (index.classes.flatMap (fun c =>
    if c.name = base then []
    else
      (if c.extendsName = some base then [c.name] else []) ++
        (if base ∈ c.implementsNames then [c.name] else [])))

/-- `requireTestMentions` of structuralTopics.ts: each name must occur
with `\b` on both sides (the names are identifiers, so the JavaScript
escaping is the identity). -/
def requireTestMentions (testSuite : Src) (names : List Src) (ctx : Src) :
    Except Src Unit :=
  match names with
  | [] => Except.ok ()
  | n :: rest =>
    if containsWord n testSuite none then requireTestMentions testSuite rest ctx
    else Except.error ("Structural topic requirement failed (".data ++ ctx ++
      "): test_suite must mention \"".data ++ n ++ "\".".data)

/-- One attempt of `\bBASE\b\s+\w+\s*=\s*new\s+\w+\b` (the polymorphism
dispatch probe: the constructed type is any word, not necessarily an
implementation of the base). -/
def matchBaseVarNew (base : Src) (cs : Src) (prev : Option Char) : Option Unit :=
  if noWordBefore prev && startsWithSub base cs then
    match skipSpaces1 (cs.drop base.length) with
    | none => none
    | some cs2 =>
      match takeWord1 cs2 with
      | none => none
      | some cs3 =>
        match cs3.dropWhile isJsSpace with
        | '=' :: cs5 =>
          let cs6 := cs5.dropWhile isJsSpace
          if startsWithSub "new".data cs6 then
            match skipSpaces1 (cs6.drop 3) with
            | none => none
            | some cs7 => if (takeWord1 cs7).isSome then some () else none
          else none
        | _ => none
  else none

/-- One attempt of `\bBASE\b\s+\w+\s*=\s*new\s+SUB\b` (the inheritance
base-typed reference probe). -/
def matchBaseNewSub (base sub : Src) (cs : Src) (prev : Option Char) : Option Unit :=
  if noWordBefore prev && startsWithSub base cs then
    match skipSpaces1 (cs.drop base.length) with
    | none => none
    | some cs2 =>
      match takeWord1 cs2 with
      | none => none
      | some cs3 =>
        match cs3.dropWhile isJsSpace with
        | '=' :: cs5 =>
          let cs6 := cs5.dropWhile isJsSpace
          if startsWithSub "new".data cs6 then
            match skipSpaces1 (cs6.drop 3) with
            | none => none
            | some cs7 =>
              if startsWithSub sub cs7 then
                match cs7.drop sub.length with
                | [] => some ()
                | c :: _ => if isWordChar c then none else some ()
              else none
          else none
        | _ => none
  else none

/-- One attempt of
`@Override\s+public\s+[\w<>\[\]]+\s+([A-Za-z_][A-Za-z0-9_]*)\s*\(`. -/
def matchOverride (cs : Src) (prev : Option Char) : Option Src :=
  if startsWithSub "@Override".data cs then
    match skipSpaces1 (cs.drop 9) with
    | none => none
    | some cs1 =>
      if startsWithSub "public".data cs1 then
        match skipSpaces1 (cs1.drop 6) with
        | none => none
        | some cs2 =>
          match cs2 with
          | c :: _ =>
            if isWordChar c || c = '<' || c = '>' || c = '[' || c = ']' then
              match skipSpaces1 (cs2.dropWhile (fun c2 =>
                  isWordChar c2 || c2 = '<' || c2 = '>' || c2 = '[' || c2 = ']')) with
              | none => none
              | some cs4 =>
                match takeIdent cs4 with
                | none => none
                | some (name, cs5) =>
                  match cs5.dropWhile isJsSpace with
                  | '(' :: _ => some name
                  | _ => none
            else none
          | [] => none
      else none
  else none

/-- One attempt of `\.METHOD\s*\(`. -/
def matchDotCall (method : Src) (cs : Src) (prev : Option Char) : Option Unit :=
  match cs with
  | '.' :: cs1 =>
    if startsWithSub method cs1 then
      match (cs1.drop method.length).dropWhile isJsSpace with
      | '(' :: _ => some ()
      | _ => none
    else none
  | _ => none

/-- `T\b\s+\w+\s*;` — the typed-field tail of the composition probe;
the `\b` after `T` is subsumed by the mandatory whitespace. -/
def matchTypeField (t : Src) (cs : Src) : Option Unit :=
  if startsWithSub t cs then
    match skipSpaces1 (cs.drop t.length) with
    | none => none
    | some cs2 =>
      match takeWord1 cs2 with
      | none => none
      | some cs3 =>
        match cs3.dropWhile isJsSpace with
        | ';' :: _ => some ()
        | _ => none
  else none

/-- `(?:final\s+)?T...`: greedy optional group with its regex fallback
(drop the group when its branch fails). -/
def fieldFinal (t : Src) (cs : Src) : Option Unit :=
  match (if startsWithSub "final".data cs then
      match skipSpaces1 (cs.drop 5) with
      | none => none
      | some cs2 => matchTypeField t cs2
    else none) with
  | some r => some r
  | none => matchTypeField t cs

/-- One attempt of
`\b(?:private|protected)\s+(?:final\s+)?T\b\s+\w+\s*;` (composition). -/
def matchFieldOfType (t : Src) (cs : Src) (prev : Option Char) : Option Unit :=
  if noWordBefore prev then
    if startsWithSub "private".data cs then
      match skipSpaces1 (cs.drop 7) with
      | none => none
      | some cs1 => fieldFinal t cs1
    else if startsWithSub "protected".data cs then
      match skipSpaces1 (cs.drop 9) with
      | none => none
      | some cs1 => fieldFinal t cs1
    else none
  else none

/-- One attempt of `\bprivate\s+[^;]+;` (encapsulation): one whitespace
char, then the first semicolon must lie at least two characters further
(backtracking over the greedy pieces reduces to this). -/
def matchPrivateField (cs : Src) (prev : Option Char) : Option Unit :=
  if noWordBefore prev && startsWithSub "private".data cs then
    match cs.drop 7 with
    | c :: rest =>
      if isJsSpace c then
        let ys := rest.takeWhile (fun c2 => c2 ≠ ';')
        if ys ≠ [] ∧ rest.drop ys.length ≠ [] then some () else none
      else none
    | [] => none
  else none

/-- `\s+[A-Za-z_][A-Za-z0-9_]*\s*;` — the tail of the public-field
probe. -/
def fieldIdentSemi (cs : Src) : Bool :=
  match cs with
  | c :: rest =>
    if isJsSpace c then
      match takeIdent (rest.dropWhile isJsSpace) with
      | some (_, r) =>
        match r.dropWhile isJsSpace with
        | ';' :: _ => true
        | _ => false
      | none => false
    else false
  | [] => false

/-- `[^;\n()]*` followed by the tail: try every split point (existence is
what `.test` observes, so greedy order is irrelevant). -/
def fieldTailSearch : Src → Bool
  | [] => false
  | c :: rest =>
    fieldIdentSemi (c :: rest) ||
      (if c = ';' ∨ c = '\n' ∨ c = '(' ∨ c = ')' then false else fieldTailSearch rest)

/-- `\s+(?!class|interface|enum)...` of the public-field probe: consume
one or more whitespace characters, checking the lookahead (and then the
field tail) after each. -/
def publicFieldSpaces : Src → Bool
  | [] => false
  | c :: rest =>
    if isJsSpace c then
      ((! (startsWithSub "class".data rest || startsWithSub "interface".data rest ||
          startsWithSub "enum".data rest)) && fieldTailSearch rest) ||
        publicFieldSpaces rest
    else false

/-- One attempt of
`\bpublic\s+(?!class|interface|enum)[^;\n()]*\s+[A-Za-z_][A-Za-z0-9_]*\s*;`
(encapsulation public-field detector). -/
def matchPublicField (cs : Src) (prev : Option Char) : Option Unit :=
  if noWordBefore prev && startsWithSub "public".data cs then
    if publicFieldSpaces (cs.drop 6) then some () else none
  else none

/-- One attempt of `\bCLASS\b\s+(ID)\s*=\s*new\s+CLASS\s*\(` (the
encapsulation instance-assignment probe, capturing the variable). -/
def matchClassAssign (cls : Src) (cs : Src) (prev : Option Char) : Option Src :=
  if noWordBefore prev && startsWithSub cls cs then
    match skipSpaces1 (cs.drop cls.length) with
    | none => none
    | some cs2 =>
      match takeIdent cs2 with
      | none => none
      | some (v, cs3) =>
        match cs3.dropWhile isJsSpace with
        | '=' :: cs5 =>
          let cs6 := cs5.dropWhile isJsSpace
          if startsWithSub "new".data cs6 then
            match skipSpaces1 (cs6.drop 3) with
            | none => none
            | some cs7 =>
              if startsWithSub cls cs7 then
                match (cs7.drop cls.length).dropWhile isJsSpace with
                | '(' :: _ => some v
                | _ => none
              else none
          else none
        | _ => none
  else none

/-- One attempt of `\bVAR\s*\.\s*([A-Za-z_][A-Za-z0-9_]*)\s*\(` with the
g flag (method-call collection). -/
def matchVarCall (v : Src) (cs : Src) (prev : Option Char) :
    Option (Src × Src × Option Char) :=
  if noWordBefore prev && startsWithSub v cs then
    match (cs.drop v.length).dropWhile isJsSpace with
    | '.' :: cs2 =>
      match takeIdent (cs2.dropWhile isJsSpace) with
      | some (m, cs3) =>
        match cs3.dropWhile isJsSpace with
        | '(' :: cs4 => some (m, cs4, some '(')
        | _ => none
      | none => none
    | _ => none
  else none

/-- `requireTwoMethodCallsOnSameInstance` of structuralTopics.ts. -/
def requireTwoMethodCallsOnSameInstance (testSuite : Src) (className : Src)
    (ctx : Src) : Except Src Unit :=
  match scanFirst (matchClassAssign className) testSuite none with
  | none =>
    Except.error ("Structural topic requirement failed (".data ++ ctx ++
      "): test_suite must assign a \"".data ++ className ++
      "\" instance to a variable so it can exercise stateful behavior.".data)
  | some varName =>
    let calls := scanAll (matchVarCall varName) (testSuite.length + 1) testSuite none
    if (dedup calls).length < 2 then
      Except.error ("Structural topic requirement failed (".data ++ ctx ++
        "): test_suite must call at least 2 distinct methods on the same \"".data ++
        className ++ "\" instance.".data)
    else Except.ok ()

/-- The polymorphism branch of `assertJavaStructuralTopicRequirements`. -/
def checkPolymorphism (index : JavaTypeIndex) (testSuite : Src) : Except Src Unit :=
  match pickBaseType index with
  | none =>
    Except.error "Structural topic requirement failed (polymorphism): reference solution must define an interface or abstract class to serve as a base type.".data
  | some base =>
    if base = [] then
      Except.error "Structural topic requirement failed (polymorphism): reference solution must define an interface or abstract class to serve as a base type.".data
    else
      let impls := findImplementations index base
      if impls.length < 2 then
        Except.error ("Structural topic requirement failed (polymorphism): must include at least 2 concrete implementations of \"".data ++
          base ++ "\".".data)
      else
        match requireTestMentions testSuite [base, impls.getD 0 [], impls.getD 1 []]
            "polymorphism".data with
        | Except.error e => Except.error e
        | Except.ok _ =>
          if (scanFirst (matchBaseVarNew base) testSuite none).isSome then Except.ok ()
          else
            Except.error ("Structural topic requirement failed (polymorphism): test_suite must assign a \"".data ++
              base ++ "\" reference to a concrete implementation to exercise dynamic dispatch.".data)

/-- The abstraction branch of `assertJavaStructuralTopicRequirements`. -/
def checkAbstraction (index : JavaTypeIndex) (testSuite : Src) : Except Src Unit :=
  match pickBaseType index with
  | none =>
    Except.error "Structural topic requirement failed (abstraction): reference solution must define an interface or abstract class.".data
  | some base =>
    if base = [] then
      Except.error "Structural topic requirement failed (abstraction): reference solution must define an interface or abstract class.".data
    else
      let impls := findImplementations index base
      if impls.length < 1 then
        Except.error ("Structural topic requirement failed (abstraction): must include at least 1 implementation of \"".data ++
          base ++ "\".".data)
      else requireTestMentions testSuite [base, impls.getD 0 []] "abstraction".data

/-- The inheritance branch of `assertJavaStructuralTopicRequirements`. -/
def checkInheritance (index : JavaTypeIndex) (referenceSource testSuite : Src) :
    Except Src Unit :=
  match index.classes.find? (fun c =>
      decide (c.extendsName ≠ none ∧ c.extendsName ≠ some "Object".data)) with
  | none =>
    Except.error "Structural topic requirement failed (inheritance): reference solution must include a subclass that extends a base class.".data
  | some pair =>
    match pair.extendsName with
    | none =>
      Except.error "Structural topic requirement failed (inheritance): reference solution must include a subclass that extends a base class.".data
    | some base =>
      if base = [] then
        Except.error "Structural topic requirement failed (inheritance): reference solution must include a subclass that extends a base class.".data
      else
        match scanFirst matchOverride referenceSource none with
        | none =>
          Except.error ("Structural topic requirement failed (inheritance): subclass \"".data ++
            pair.name ++ "\" must override at least one method (use @Override).".data)
        | some overrideMethod =>
          match requireTestMentions testSuite [base, pair.name] "inheritance".data with
          | Except.error e => Except.error e
          | Except.ok _ =>
            if (scanFirst (matchBaseNewSub base pair.name) testSuite none).isSome then
              if (scanFirst (matchDotCall overrideMethod) testSuite none).isSome then
                Except.ok ()
              else
                Except.error ("Structural topic requirement failed (inheritance): test_suite must call the overridden method \"".data ++
                  overrideMethod ++ "\".".data)
            else
              Except.error ("Structural topic requirement failed (inheritance): test_suite must reference subclass behavior via a \"".data ++
                base ++ "\"-typed variable assigned to \"".data ++ pair.name ++ "\".".data)

/-- The composition branch of `assertJavaStructuralTopicRequirements`. -/
def checkComposition (index : JavaTypeIndex) (publicClass : Option Src)
    (referenceSource testSuite : Src) : Except Src Unit :=
  match publicClass with
  | none =>
    Except.error "Structural topic requirement failed (composition): reference solution must include a non-\"Main\" class suitable for composition checks.".data
  | some pc =>
    let others := (index.classes.map (fun c => c.name)).filter (fun n => decide (n ≠ pc))
    if others.length < 1 then
      Except.error ("Structural topic requirement failed (composition): \"".data ++ pc ++
        "\" must compose at least one other type (define an additional class).".data)
    else
      match others.find? (fun t =>
          (scanFirst (matchFieldOfType t) referenceSource none).isSome) with
      | none =>
        Except.error ("Structural topic requirement failed (composition): \"".data ++ pc ++
          "\" must have a private/protected field of another declared type.".data)
      | some fieldType => requireTestMentions testSuite [pc, fieldType] "composition".data

/-- The encapsulation branch of `assertJavaStructuralTopicRequirements`. -/
def checkEncapsulation (publicClass : Option Src) (referenceSource testSuite : Src) :
    Except Src Unit :=
  match publicClass with
  | none =>
    Except.error "Structural topic requirement failed (encapsulation): reference solution must include a non-\"Main\" class suitable for encapsulation checks.".data
  | some pc =>
    if (scanFirst matchPrivateField referenceSource none).isSome then
      if (scanFirst matchPublicField referenceSource none).isSome then
        Except.error ("Structural topic requirement failed (encapsulation): \"".data ++
          pc ++ "\" must not expose public fields (use methods).".data)
      else requireTwoMethodCallsOnSameInstance testSuite pc "encapsulation".data
    else
      Except.error ("Structural topic requirement failed (encapsulation): \"".data ++
        pc ++ "\" must include at least one private field.".data)

/-- The per-topic loop of `assertJavaStructuralTopicRequirements` (first
failing topic wins). -/
def runStructuralChecks (index : JavaTypeIndex) (publicClass : Option Src)
    (referenceSource testSuite : Src) : List StructuralTopic → Except Src Unit
  | [] => Except.ok ()
  | t :: ts =>
    match (match t with
      | StructuralTopic.polymorphism => checkPolymorphism index testSuite
      | StructuralTopic.abstraction => checkAbstraction index testSuite
      | StructuralTopic.inheritance => checkInheritance index referenceSource testSuite
      | StructuralTopic.composition =>
        checkComposition index publicClass referenceSource testSuite
      | StructuralTopic.encapsulation =>
        checkEncapsulation publicClass referenceSource testSuite) with
    | Except.ok _ => runStructuralChecks index publicClass referenceSource testSuite ts
    | Except.error e => Except.error e

/-- `assertJavaStructuralTopicRequirements` of structuralTopics.ts as an
`Except` (`.error` is the thrown `Error` message). -/
def assertJavaStructuralTopicRequirements (topics : List Src)
    (referenceSource testSuite : Src) : Except Src Unit :=
  let required := requiredStructuralTopics topics
  if required = [] then Except.ok ()
  else
    runStructuralChecks (indexJavaTypes referenceSource)
      (pickStatefulPrimaryClass (indexJavaTypes referenceSource))
      referenceSource testSuite required

/-- One attempt of the case-insensitive mapping regex of
`mapJavaStructuralTopicErrorToObligationId` (the input is lowercased by
the caller). -/
def mapTopicAttempt (cs : Src) (prev : Option Char) : Option Src :=
  if startsWithSub "structural topic requirement failed (".data cs then
    if startsWithSub "polymorphism)".data (cs.drop 37) then
      some "java.structural_topic.polymorphism".data
    else if startsWithSub "inheritance)".data (cs.drop 37) then
      some "java.structural_topic.inheritance".data
    else if startsWithSub "abstraction)".data (cs.drop 37) then
      some "java.structural_topic.abstraction".data
    else if startsWithSub "encapsulation)".data (cs.drop 37) then
      some "java.structural_topic.encapsulation".data
    else if startsWithSub "composition)".data (cs.drop 37) then
      some "java.structural_topic.composition".data
    else none
  else none

/-- `mapJavaStructuralTopicErrorToObligationId` of obligations.ts. -/
def mapJavaStructuralTopicErrorToObligationId (message : Src) : Option Src :=
  scanFirst mapTopicAttempt (jsToLower message) none

def natDigitsGo : Nat → Nat → Src
  | 0, _ => []
  | fuel + 1, n =>
    if n < 10 then [Char.ofNat (48 + n)]
    else natDigitsGo fuel (n / 10) ++ [Char.ofNat (48 + n % 10)]

/-- Decimal rendering of a natural number (JavaScript template
interpolation of a number). -/
def natToDigits (n : Nat) : Src := natDigitsGo (n + 1) n

/-- One attempt of `/^\s*package\s+/m`: at a line start, whitespace, then
the word package followed by whitespace. -/
def matchPackageAt (cs : Src) (prev : Option Char) : Option Unit :=
  if prev = none ∨ prev = some '\n' then
    let r := cs.dropWhile isJsSpace
    if startsWithSub "package".data r then
      match r.drop 7 with
      | c :: _ => if isJsSpace c then some () else none
      | [] => none
    else none
  else none

def hasPackageDecl (s : Src) : Bool := (scanFirst matchPackageAt s none).isSome

/-- One attempt of `\bwhile\s*\(\s*false\s*\)\s*\x7b?` (the optional
brace never constrains a test). -/
def matchWhileFalseAt (cs : Src) (prev : Option Char) : Option Unit :=
  if noWordBefore prev && startsWithSub "while".data cs then
    match (cs.drop 5).dropWhile isJsSpace with
    | '(' :: r2 =>
      let r3 := r2.dropWhile isJsSpace
      if startsWithSub "false".data r3 then
        match (r3.drop 5).dropWhile isJsSpace with
        | ')' :: _ => some ()
        | _ => none
      else none
    | _ => none
  else none

def hasWhileFalse (s : Src) : Bool := (scanFirst matchWhileFalseAt s none).isSome

/-- Regex element helpers: a literal, `\s*`, a single character. -/
def afterLit (w : Src) (cs : Src) : Option Src :=
  if startsWithSub w cs then some (cs.drop w.length) else none

def afterSp (cs : Src) : Src := cs.dropWhile isJsSpace

def afterCh (c : Char) (cs : Src) : Option Src :=
  match cs with
  | c2 :: rest => if c2 = c then some rest else none
  | [] => none

/-- `System\s*\.\s*in` (shared tail of the stdin probes). -/
def matchSysDotIn (cs : Src) : Option Src :=
  (afterLit "System".data cs).bind (fun r1 =>
    (afterCh '.' (afterSp r1)).bind (fun r2 =>
      afterLit "in".data (afterSp r2)))

/-- One attempt of the five stdin regexes of `javaUsesStdin`
(part_012): `\bSystem\s*\.\s*in\b`, `\bSystem\s*\.\s*console\s*\(`,
`\bnew\s+Scanner\s*\(\s*System\s*\.\s*in\s*\)`,
`\bInputStreamReader\s*\(\s*System\s*\.\s*in\s*\)`, and
`\bnew\s+BufferedReader\s*\(\s*new\s+InputStreamReader\s*\(\s*System\s*\.\s*in\s*\)\s*\)`.
The or of the separate tests is the test of the or. -/
def matchJavaStdinAt (cs : Src) (prev : Option Char) : Option Unit :=
  if noWordBefore prev then
    let r1 : Bool :=
      match matchSysDotIn cs with
      | some rest =>
        (match rest with
        | [] => true
        | c :: _ => ! isWordChar c)
      | none => false
    let r2 : Bool :=
      ((afterLit "System".data cs).bind (fun a =>
        (afterCh '.' (afterSp a)).bind (fun b =>
          (afterLit "console".data (afterSp b)).bind (fun c2 =>
            afterCh '(' (afterSp c2))))).isSome
    let r3 : Bool :=
      ((afterLit "new".data cs).bind (fun a =>
        (skipSpaces1 a).bind (fun b =>
          (afterLit "Scanner".data b).bind (fun c2 =>
            (afterCh '(' (afterSp c2)).bind (fun d =>
              (matchSysDotIn (afterSp d)).bind (fun e =>
                afterCh ')' (afterSp e))))))).isSome
    let r4 : Bool :=
      ((afterLit "InputStreamReader".data cs).bind (fun a =>
        (afterCh '(' (afterSp a)).bind (fun b =>
          (matchSysDotIn (afterSp b)).bind (fun e =>
            afterCh ')' (afterSp e))))).isSome
    let r5 : Bool :=
      ((afterLit "new".data cs).bind (fun a =>
        (skipSpaces1 a).bind (fun b =>
          (afterLit "BufferedReader".data b).bind (fun c2 =>
            (afterCh '(' (afterSp c2)).bind (fun d =>
              (afterLit "new".data (afterSp d)).bind (fun e =>
                (skipSpaces1 e).bind (fun f =>
                  (afterLit "InputStreamReader".data f).bind (fun g =>
                    (afterCh '(' (afterSp g)).bind (fun h2 =>
                      (matchSysDotIn (afterSp h2)).bind (fun i =>
                        (afterCh ')' (afterSp i)).bind (fun j =>
                          afterCh ')' (afterSp j)))))))))))).isSome
    if r1 || r2 || r3 || r4 || r5 then some () else none
  else none

/-- `javaUsesStdin` of part_012 (javaSource.ts): the probes run over the
comment- and literal-stripped source. -/
def javaUsesStdin (source : Src) : Bool :=
  (scanFirst matchJavaStdinAt (stripJava source) none).isSome

/-- One attempt of
`\bSystem\s*\.\s*out\s*\.\s*(?:print|println|printf|write)\s*\(`. -/
def matchStdoutCallAt (cs : Src) (prev : Option Char) : Option Unit :=
  if noWordBefore prev && startsWithSub "System".data cs then
    match (cs.drop 6).dropWhile isJsSpace with
    | '.' :: r2 =>
      let r3 := r2.dropWhile isJsSpace
      if startsWithSub "out".data r3 then
        match (r3.drop 3).dropWhile isJsSpace with
        | '.' :: r4 =>
          let r5 := r4.dropWhile isJsSpace
          let probe := fun (w : Src) =>
            (match (afterLit w r5).map afterSp with
            | some ('(' :: _) => true
            | _ => false)
          if probe "print".data || probe "println".data || probe "printf".data ||
              probe "write".data then some () else none
        | _ => none
      else none
    | _ => none
  else none

/-- `javaUsesStdout` of part_012 (javaSource.ts). -/
def javaUsesStdout (source : Src) : Bool :=
  (scanFirst matchStdoutCallAt (stripJava source) none).isSome

/-- After `/*`: drop through the first `*/`, or fail when unterminated
(the lazy block-comment regex then has no match at all). -/
def dropToBlockEnd : Src → Option Src
  | [] => none
  | c :: rest =>
    if c = '*' ∧ rest.head? = some '/' then some rest.tail
    else dropToBlockEnd rest

/-- `replace(/\/\*[\s\S]*?\*\//g, "")` of `hasJavaMainMethod`. -/
def stripBlockComments : Nat → Src → Src
  | 0, _ => []
  | fuel + 1, cs =>
    match cs with
    | [] => []
    | c :: rest =>
      if c = '/' ∧ rest.head? = some '*' then
        match dropToBlockEnd rest.tail with
        | some r => stripBlockComments fuel r
        | none => c :: rest
      else c :: stripBlockComments fuel rest

/-- `replace(/\/\/.*$/gm, "")` of `hasJavaMainMethod`. -/
def stripLineComments : Nat → Src → Src
  | 0, _ => []
  | fuel + 1, cs =>
    match cs with
    | [] => []
    | c :: rest =>
      if c = '/' ∧ rest.head? = some '/' then
        stripLineComments fuel (rest.tail.dropWhile (fun c2 => c2 ≠ '\n'))
      else c :: stripLineComments fuel rest

/-- `\s*\w+\s*\)` — the shared tail of the main-signature parameter
alternatives. -/
def mainParamIdentClose (r : Src) : Bool :=
  match takeWord1 (r.dropWhile isJsSpace) with
  | some r2 =>
    (match r2.dropWhile isJsSpace with
    | ')' :: _ => true
    | _ => false)
  | none => false

/-- `(?:(?:\[\s*\]|\.\.\.)\s*\w+|\w+\s*\[\s*\])\s*\)` after `String`. -/
def mainParamTail (r : Src) : Bool :=
  let r1 := r.dropWhile isJsSpace
  let alt1 : Bool :=
    match r1 with
    | '[' :: r2 =>
      (match r2.dropWhile isJsSpace with
      | ']' :: r3 => mainParamIdentClose r3
      | _ => false)
    | _ =>
      if startsWithSub "...".data r1 then mainParamIdentClose (r1.drop 3)
      else false
  if alt1 then true
  else
    match takeWord1 r1 with
    | some r2 =>
      (match r2.dropWhile isJsSpace with
      | '[' :: r3 =>
        (match r3.dropWhile isJsSpace with
        | ']' :: r4 =>
          (match r4.dropWhile isJsSpace with
          | ')' :: _ => true
          | _ => false)
        | _ => false)
      | _ => false)
    | none => false

/-- `(?:final\s+)?String...` with the regex fallback on the optional
group. -/
def mainStringPart (cs : Src) : Bool :=
  let direct := fun (r : Src) =>
    (match afterLit "String".data r with
    | some r2 => mainParamTail r2
    | none => false)
  (if startsWithSub "final".data cs then
    (match skipSpaces1 (cs.drop 5) with
    | some r => direct r
    | none => false)
  else false) || direct cs

/-- One attempt of the main-method regex of `hasJavaMainMethod`:
`public\s+static\s+void\s+main\s*\(\s*(?:final\s+)?String\s*(?:...)\s*\)`. -/
def matchMainAt (cs : Src) (prev : Option Char) : Option Unit :=
  match (afterLit "public".data cs).bind skipSpaces1 with
  | none => none
  | some r1 =>
    match (afterLit "static".data r1).bind skipSpaces1 with
    | none => none
    | some r2 =>
      match (afterLit "void".data r2).bind skipSpaces1 with
      | none => none
      | some r3 =>
        match afterLit "main".data r3 with
        | none => none
        | some r4 =>
          match afterCh '(' (afterSp r4) with
          | none => none
          | some r5 =>
            if mainStringPart (afterSp r5) then some () else none

/-- `hasJavaMainMethod` of obligations.ts: strip block comments, then
line comments, then probe for the main signature. -/
def hasJavaMainMethod (source : Src) : Bool :=
  let s1 := stripBlockComments (source.length + 1) source
  let s2 := stripLineComments (s1.length + 1) s1
  (scanFirst matchMainAt s2 none).isSome

/-- `hasJavaStructuralTopics` of obligations.ts (plain lowercase
`includes`, unlike the normalising probe of structuralTopics.ts). -/
def hasJavaStructuralTopics (topics : List Src) : Bool :=
  ["polymorphism".data, "inheritance".data, "abstraction".data, "encapsulation".data,
    "composition".data].any
    (fun k => topics.any (fun t => containsSub k (jsToLower t)))

/-- `replace(/\r\n/g, "\n")`. -/
def normalizeNewlines : Src → Src
  | [] => []
  | '\r' :: '\n' :: rest => '\n' :: normalizeNewlines rest
  | c :: rest => c :: normalizeNewlines rest

/-- `escapeJavaStringLiteral` of sampleDrivenTests.ts: the sequential
global replaces amount to a character map. -/
def escapeJavaStringLiteral (value : Src) : Src :=
  value.flatMap (fun c =>
    if c = '\\' then "\\\\".data
    else if c = '"' then "\\\"".data
    else if c = '\n' then "\\n".data
    else if c = '\t' then "\\t".data
    else if c = '\r' then "\\r".data
    else [c])

/-- `/^[A-Za-z_][A-Za-z0-9_]*$/`. -/
def isJavaIdent (s : Src) : Bool :=
  match s with
  | [] => false
  | c :: rest => isIdentStart c && rest.all isWordChar

structure SampleCase where
  stdin : Src
  expectedStdout : Src
deriving Repr, DecidableEq

/-- `buildJavaStdinSampleDrivenJUnitTestSuite` of sampleDrivenTests.ts
(`.error` carries the thrown message). -/
def buildJavaStdinSampleDrivenJUnitTestSuite (testClassName mainClassName : Src)
    (cases : List SampleCase) : Except Src Src :=
  let testClass := jsTrim testClassName
  let mainClass := jsTrim mainClassName
  if ¬ isJavaIdent testClass then
    .error ("Invalid testClassName \"".data ++ testClassName ++ "\".".data)
  else if ¬ isJavaIdent mainClass then
    .error ("Invalid mainClassName \"".data ++ mainClassName ++ "\".".data)
  else
    let cases8 := cases.take 8
    if cases8.length ≠ 8 then
      .error ("Expected exactly 8 stdin/stdout cases for sample-driven tests; got ".data ++
        natToDigits cases8.length ++ ".".data)
    else
      let tests := (cases8.mapIdx (fun idx c =>
        "  @Test void test_case_".data ++ natToDigits (idx + 1) ++
          "()\x7b assertEquals(\"".data ++
          escapeJavaStringLiteral (normalizeNewlines c.expectedStdout) ++
          "\", runWithStdin(\"".data ++
          escapeJavaStringLiteral (normalizeNewlines c.stdin) ++
          "\").trim()); \x7d".data)).intersperse "\n".data
      .ok (jsTrim ("\nimport org.junit.jupiter.api.Test;\nimport static org.junit.jupiter.api.Assertions.*;\nimport java.io.*;\nimport java.nio.charset.StandardCharsets;\n\npublic class ".data ++
        testClass ++
        " \x7b\n  private static String runWithStdin(String stdin) \x7b\n    InputStream oldIn = System.in;\n    PrintStream oldOut = System.out;\n    ByteArrayInputStream in = new ByteArrayInputStream(stdin.getBytes(StandardCharsets.UTF_8));\n    ByteArrayOutputStream out = new ByteArrayOutputStream();\n    System.setIn(in);\n    System.setOut(new PrintStream(out));\n    try \x7b\n      ".data ++
        mainClass ++
        ".main(new String[0]);\n    \x7d finally \x7b\n      System.setIn(oldIn);\n      System.setOut(oldOut);\n    \x7d\n    return out.toString();\n  \x7d\n\n".data ++
        tests.flatten ++
        "\n\x7d\n".data))

structure RunResult where
  stdout : Src
  stderr : Src
deriving Repr, DecidableEq

/-- The per-sample loop of `computeJavaStdoutSamplesByExecutingReference`
(sampleDrivenTests.ts); `runner` stands for `runJavaCodeOnly`. -/
def computeStdoutSamplesGo (runner : Src → Src → RunResult) (ref : Src) :
    List Src → Except Src (List Src)
  | [] => .ok []
  | s :: rest =>
    let res := runner ref s
    let stderr := jsTrim res.stderr
    if stderr ≠ [] then
      .error ("Reference execution produced stderr (stdin sample): ".data ++ stderr.take 400)
    else
      match computeStdoutSamplesGo runner ref rest with
      | .ok outs => .ok (jsTrim (normalizeNewlines res.stdout) :: outs)
      | .error e => .error e

def computeJavaStdoutSamplesByExecutingReference (runner : Src → Src → RunResult)
    (referenceSolution : Src) (stdinSamples : List Src) (maxSamples : Nat) :
    Except Src (List Src) :=
  computeStdoutSamplesGo runner referenceSolution (stdinSamples.take maxSamples)

/-- The body of a Java string literal per `/"((?:\\.|[^"\\])*)"/`: pairs
`\\.` or plain non-quote non-backslash characters, up to the closing
quote; `none` when unterminated. -/
def parseJavaLit : Nat → Src → Option (Src × Src)
  | 0, _ => none
  | fuel + 1, cs =>
    match cs with
    | [] => none
    | '"' :: rest => some ([], rest)
    | '\\' :: c2 :: rest =>
      (match parseJavaLit fuel rest with
      | some (body, r) => some ('\\' :: c2 :: body, r)
      | none => none)
    | ['\\'] => none
    | c :: rest =>
      (match parseJavaLit fuel rest with
      | some (body, r) => some (c :: body, r)
      | none => none)

/-- `replace(/^[ \t]+|[ \t]+$/g, "")`. -/
def trimSpaceTab (s : Src) : Src :=
  ((s.dropWhile (fun c => decide (c = ' ' ∨ c = '\t'))).reverse.dropWhile
    (fun c => decide (c = ' ' ∨ c = '\t'))).reverse

/-- The literal-by-literal walk of
`sanitizeJavaStringLiteralsBoundaryWhitespace` (obligations.ts):
all-whitespace literal bodies are kept, others lose boundary space/tab
characters; a quote that opens no literal stays put. -/
def sanitizeGo : Nat → Src → Src × Bool
  | 0, cs => (cs, false)
  | fuel + 1, cs =>
    match cs with
    | [] => ([], false)
    | '"' :: rest =>
      (match parseJavaLit (rest.length + 1) rest with
      | some (body, r) =>
        let step := sanitizeGo fuel r
        if body.all isJsSpace ∨ trimSpaceTab body = body then
          ('"' :: (body ++ '"' :: step.1), step.2)
        else ('"' :: (trimSpaceTab body ++ '"' :: step.1), true)
      | none =>
        let step := sanitizeGo fuel rest
        ('"' :: step.1, step.2))
    | c :: rest =>
      let step := sanitizeGo fuel rest
      (c :: step.1, step.2)

def sanitizeJavaStringLiteralsBoundaryWhitespace (testSuite : Src) : Src × Bool :=
  sanitizeGo (testSuite.length + 1) testSuite

/-- The keyword-alternation tail of the `inferClassName` regexes:
after `public\s+` the alternatives are tried in order; each must be the
literal keyword followed by `\s+` and the captured
`[A-Za-z_][A-Za-z0-9_]*` identifier (whose trailing `\b` is automatic
because the munch is maximal).  No keyword is a prefix of another, so
falling through to the remaining alternatives on any failure agrees with
the regex's backtracking. -/
def matchPublicKwsIdentGo (kws : List Src) (cs1 : Src) : Option Src :=
  match kws with
  | [] => none
  | kw :: rest =>
    if startsWithSub kw cs1 then
      match skipSpaces1 (cs1.drop kw.length) with
      | some cs2 =>
        (match takeIdent cs2 with
        | some (name, _) => some name
        | none => matchPublicKwsIdentGo rest cs1)
      | none => matchPublicKwsIdentGo rest cs1
    else matchPublicKwsIdentGo rest cs1

/-- One attempt of `\bpublic\s+(?:KW1|KW2|...)\s+([A-Za-z_][A-Za-z0-9_]*)\b`
(the shape of the first two `inferClassName` regexes). -/
def matchPublicKindIdent (kws : List Src) (cs : Src) (prev : Option Char) :
    Option Src :=
  if noWordBefore prev && startsWithSub "public".data cs then
    match skipSpaces1 (cs.drop 6) with
    | none => none
    | some cs1 => matchPublicKwsIdentGo kws cs1
  else none

/-- `inferClassName` of the utils/javaCodegen.ts segment staged in
server.ts: first `\bpublic\s+(?:class|record|enum)\s+(ID)\b`, then
`\bpublic\s+(?:class|interface|record|enum)\s+(ID)\b`, then
`\bclass\s+(ID)\b`, else the fallback (all call sites pass the fallback
explicitly). -/
def inferClassName (source fallback : Src) : Src :=
  match scanFirst (matchPublicKindIdent
      ["class".data, "record".data, "enum".data]) source none with
  | some nm => nm
  | none =>
    match scanFirst (matchPublicKindIdent
        ["class".data, "interface".data, "record".data, "enum".data]) source none with
    | some nm => nm
    | none =>
      match scanFirst (matchKwIdent "class".data) source none with
      | some r => r.1
      | none => fallback

/-- `buildDefaultClassSkeleton` of the utils/javaCodegen.ts segment
staged in server.ts. -/
def buildDefaultClassSkeleton (className : Src) : Src :=
  "public class ".data ++ className ++
    " \x7b\n\n    // TODO: implement solution\n\n\x7d\n".data

/-- `inferPrimaryClassName` of obligations.ts. -/
def inferPrimaryClassName (starterCode fallback : Src) : Src :=
  match (getTopLevelPublicTypeNames starterCode).head? with
  | some n => if n ≠ [] then n else inferClassName starterCode fallback
  | none => inferClassName starterCode fallback

/-- Modelled from the spec: languages/java/rules.ts is not among the
sources.  Per §4.4 (and the thrown message) the suite must have exactly
8 @Test methods, JUnit 5 imports, no package, and assertions. -/
def isValidJUnit5TestSuite (testSuite : Src) (expectedTestCount : Nat) : Bool :=
  decide (countSub "@Test".data testSuite = expectedTestCount) &&
  containsSub "org.junit.jupiter.api.Test".data testSuite &&
  (! hasPackageDecl testSuite) &&
  containsSub "assert".data testSuite

/-- One attempt of the modelled brittle-expectation probe: an
assertEquals whose first argument is a string literal with boundary
space/tab around non-whitespace content. -/
def brittleAt (cs : Src) (prev : Option Char) : Option Unit :=
  if startsWithSub "assertEquals(".data cs then
    match (cs.drop 13).dropWhile isJsSpace with
    | '"' :: body =>
      (match parseJavaLit (body.length + 1) body with
      | some (lit, _) =>
        if (¬ lit.all isJsSpace) ∧ trimSpaceTab lit ≠ lit then some () else none
      | none => none)
    | _ => none
  else none

/-- Modelled from the spec: languages/java/rules.ts is not among the
sources.  Per §4.4 the detector rejects assertEquals against string
literals with leading/trailing whitespace (all-whitespace literals are
allowed, matching the sanitizer comment). -/
def hasBrittleWhitespaceStringExpectations (testSuite : Src) : Bool :=
  (scanFirst brittleAt testSuite none).isSome

/-- Modelled from the spec: languages/java/rules.ts is not among the
sources.  Per the obligation catalog the suite must capture `System.out`
and assert on it. -/
def javaTestSuiteCapturesStdout (testSuite : Src) : Bool :=
  containsSub "System.setOut".data testSuite && containsSub "assert".data testSuite

/-- Modelled from the spec: languages/java/rules.ts is not among the
sources.  Per `java.stdin_tests_provide` the suite sets `System.setIn`
with a `ByteArrayInputStream`. -/
def javaTestSuiteSetsStdin (testSuite : Src) : Bool :=
  containsSub "System.setIn".data testSuite &&
    containsSub "ByteArrayInputStream".data testSuite

structure SamplePairs where
  sampleInputs : List Src
  sampleOutputs : List Src
  changed : Bool
deriving Repr, DecidableEq

/-- `coerceNonEmptySamplePairs` of obligations.ts. -/
def coerceNonEmptySamplePairs (rawInputs rawOutputs : Option (List Src))
    (fallbackLabel : Src) : SamplePairs :=
  let placeholder := "(see problem description)".data
  let inputs := (((rawInputs.getD []).map jsTrim).filter (fun x => decide (x ≠ []))).take 10
  let outputs := (((rawOutputs.getD []).map jsTrim).filter (fun x => decide (x ≠ []))).take 10
  let ni := if inputs = [] then [fallbackLabel ++ ": ".data ++ placeholder] else inputs
  let c1 := inputs = []
  let no2 := if outputs = [] then [placeholder] else outputs
  let c2 := outputs = []
  if ni.length ≠ no2.length then
    ⟨[ni.headD (fallbackLabel ++ ": ".data ++ placeholder)], [no2.headD placeholder], true⟩
  else ⟨ni, no2, decide c1 || decide c2⟩

/-- The parsed LLM JSON fields the java legacy path reads (`none` models
a missing or non-string/array field). -/
structure RawDraft where
  id : Option Src
  title : Option Src
  description : Option Src
  starter_code : Option Src
  test_suite : Option Src
  reference_solution : Option Src
  constraints : Option Src
  sample_inputs : Option (List Src)
  sample_outputs : Option (List Src)
deriving Repr, DecidableEq

/-- The java legacy `GeneratedProblemDraft`. -/
structure JavaDraft where
  id : Src
  title : Src
  description : Src
  starter_code : Src
  test_suite : Src
  reference_solution : Src
  constraints : Src
  sample_inputs : List Src
  sample_outputs : List Src
  difficulty : Difficulty
  topic_tag : Src
deriving Repr, DecidableEq

/-- Modelled from the spec: contracts/problem.ts is not among the
sources.  Per §3 the draft carries non-empty core fields and non-empty
sample arrays of equal length. -/
def generatedProblemDraftSchemaOk (d : JavaDraft) : Bool :=
  decide (d.id ≠ []) && decide (d.title ≠ []) && decide (d.description ≠ []) &&
  decide (d.starter_code ≠ []) && decide (d.test_suite ≠ []) &&
  decide (d.reference_solution ≠ []) && decide (d.sample_inputs ≠ []) &&
  decide (d.sample_inputs.length = d.sample_outputs.length)

/-- The error every failure of the per-slot generator is wrapped into by
the catch of `generateSingleProblem` (message plus the obligation id when
the inner error was an `ObligationViolationError`). -/
structure GenerationContractError where
  message : Src
  obligationId : Option Src
deriving Repr, DecidableEq

/-- Modelled from the spec: generation/index.ts (the slot runner) is not
among the sources.  Per §3/§4.4 — obligation and validation failures are
contract failures — and the constraints-locking unit test, every
`GenerationContractError` is reported as a `contract` slot failure. -/
def slotFailureKindOf (_ : GenerationContractError) : Src := "contract".data

/-- `String(x ?? "").trim()` guarded by the JavaScript truthiness of the
trimmed value. -/
def truthyTrim (o : Option Src) : Src :=
  match o with
  | some s => if jsTrim s ≠ [] then jsTrim s else []
  | none => []

def truthyTrimOr (o : Option Src) (fallback : Src) : Src :=
  match o with
  | some s => if jsTrim s ≠ [] then jsTrim s else fallback
  | none => fallback

/-- `assertJavaLegacyDraftInvariants` of obligations.ts (the
legacy-shaped draft always has `starter_code`). -/
def assertJavaLegacyDraftInvariants (slot : ProblemSlot) (draft : JavaDraft) :
    Except Src Unit :=
  if (getTopLevelPublicTypeNames draft.starter_code).length ≠ 1 then
    .error "starter_code must declare exactly one top-level public type.".data
  else
    let className := inferPrimaryClassName draft.starter_code
      ("Problem".data ++ natToDigits (slot.index + 1))
    let expectedTestClassName := className ++ "Test".data
    let actualTestClassName := inferPrimaryClassName draft.test_suite expectedTestClassName
    if actualTestClassName ≠ expectedTestClassName then
      .error ("Test suite class name \"".data ++ actualTestClassName ++
        "\" must match \"".data ++ expectedTestClassName ++ "\".".data)
    else if hasPackageDecl draft.reference_solution then
      .error ("reference_solution for slot ".data ++ natToDigits slot.index ++
        " contains package declaration.".data)
    else if (getTopLevelPublicTypeNames draft.reference_solution).length ≠ 1 then
      .error "reference_solution must declare exactly one top-level public type.".data
    else if inferPrimaryClassName draft.reference_solution [] ≠ className then
      .error ("reference_solution class name \"".data ++
        inferPrimaryClassName draft.reference_solution [] ++
        "\" does not match starter_code class name \"".data ++ className ++ "\".".data)
    else if hasWhileFalse draft.reference_solution then
      .error "reference_solution must not include \"while(false)\" (unreachable statement).".data
    else .ok ()

/-- The targeted reference-repair branch of `generateSingleProblem`
(obligations.ts): `repairedRef` stands for the LLM-repaired
reference_solution.  It revalidates only the draft schema and
`assertJavaLegacyDraftInvariants`. -/
def repairJavaPath (slot : ProblemSlot) (prev : JavaDraft) (repairedRef : Src) :
    Except Src JavaDraft :=
  if jsTrim repairedRef = jsTrim prev.reference_solution then
    .error "Java reference_solution repair made no changes.".data
  else
    let nextDraft := { prev with reference_solution := repairedRef }
    if ¬ generatedProblemDraftSchemaOk nextDraft then
      .error "Java reference_solution repair produced invalid draft.".data
    else
      match assertJavaLegacyDraftInvariants slot nextDraft with
      | .error e => .error e
      | .ok _ => .ok nextDraft

structure StarterResult where
  starterCode : Src
  className : Src
  rewrites : List Src
deriving Repr, DecidableEq

/-- The starter_code stage of the java legacy path: demote extra public
types, synthesize a skeleton when missing or package-laden, and promote a
type to public when none is. -/
def processStarter (slot : ProblemSlot) (raw : RawDraft) :
    Except GenerationContractError StarterResult :=
  let starter0 := truthyTrim raw.starter_code
  let dem := demoteExtraTopLevelPublicTypes starter0 none
  let starter1 := if dem.changed then dem.source else starter0
  let rw1 : List Src := if dem.changed then ["java.demote_extra_public_types".data] else []
  let fallbackName := "Problem".data ++ natToDigits (slot.index + 1)
  let className0 := inferPrimaryClassName starter1 fallbackName
  let starter2 := if jsTrim starter1 = [] ∨ hasPackageDecl starter1 then
      buildDefaultClassSkeleton className0 else starter1
  let className := if jsTrim starter1 = [] ∨ hasPackageDecl starter1 then
      inferPrimaryClassName starter2 fallbackName else className0
  let pub1 := getTopLevelPublicTypeNames starter2
  if pub1.length > 1 then
    .error ⟨"starter_code must not declare more than one top-level public type.".data,
      some "java.single_public_type_per_unit".data⟩
  else if pub1.length = 0 then
    let promoted := promoteOneTopLevelTypeToPublic starter2 (some className)
    if promoted.changed then
      if (getTopLevelPublicTypeNames promoted.source).length = 0 then
        .error ⟨"starter_code must declare exactly one top-level public type.".data,
          some "java.single_public_type_per_unit".data⟩
      else .ok ⟨promoted.source, className, rw1 ++ ["java.promote_public_type".data]⟩
    else
      .error ⟨"starter_code must declare exactly one top-level public type.".data,
        some "java.single_public_type_per_unit".data⟩
  else .ok ⟨starter2, className, rw1⟩

structure RefResult where
  refSource : Src
  rewrites : List Src
deriving Repr, DecidableEq

/-- The reference_solution stage of the java legacy path. -/
def processReference (slot : ProblemSlot) (className : Src) (raw : RawDraft) :
    Except GenerationContractError RefResult :=
  let ref0 := truthyTrim raw.reference_solution
  if jsTrim ref0 = [] then
    .error ⟨"Missing reference_solution for slot ".data ++ natToDigits slot.index ++
      ".".data, none⟩
  else
    let dem := demoteExtraTopLevelPublicTypes ref0 (some className)
    let ref1 := if dem.changed then dem.source else ref0
    let rw1 : List Src := if dem.changed then ["java.demote_extra_public_types".data] else []
    let pub1 := getTopLevelPublicTypeNames ref1
    if pub1.length > 1 then
      .error ⟨"reference_solution must not declare more than one top-level public type.".data,
        some "java.single_public_type_per_unit".data⟩
    else
      let promoted := promoteOneTopLevelTypeToPublic ref1 (some className)
      let ref2 := if pub1.length = 0 ∧ promoted.changed then promoted.source else ref1
      let rw2 := if pub1.length = 0 ∧ promoted.changed then
          rw1 ++ ["java.promote_public_type".data] else rw1
      if (getTopLevelPublicTypeNames ref2).length = 0 then
        .error ⟨"reference_solution must declare exactly one top-level public type.".data,
          some "java.single_public_type_per_unit".data⟩
      else if hasPackageDecl ref2 then
        .error ⟨"reference_solution for slot ".data ++ natToDigits slot.index ++
          " contains package declaration.".data, none⟩
      else if hasWhileFalse ref2 then
        .error ⟨"reference_solution must not include \"while(false)\" (unreachable statement).".data,
          some "java.no_while_false".data⟩
      else if inferPrimaryClassName ref2 [] ≠ className then
        .error ⟨"reference_solution class name \"".data ++ inferPrimaryClassName ref2 [] ++
          "\" does not match starter_code class name \"".data ++ className ++ "\".".data,
          some "java.primary_type_matches_target".data⟩
      else .ok ⟨ref2, rw2⟩

/-- The two stdin gate obligations of the java legacy path. -/
def stdinGate (usesStdin : Bool) (topics : List Src) (refSource : Src) :
    Except GenerationContractError Unit :=
  if usesStdin ∧ hasJavaStructuralTopics topics then
    .error ⟨"stdin reads (Scanner/System.in) are not allowed for Java structural-topic slots (encapsulation/inheritance/polymorphism/etc). Use pure methods and deterministic unit tests instead.".data,
      some "java.stdin_disallowed_for_structural_topics".data⟩
  else if usesStdin ∧ ¬ hasJavaMainMethod refSource then
    .error ⟨"stdin-driven Java problems must provide a public static void main(String[] args) entrypoint so tests can execute deterministically.".data,
      some "java.stdin_requires_main".data⟩
  else .ok ()

structure StdinResult where
  testSuite : Src
  sampleInputs : List Src
  sampleOutputs : List Src
deriving Repr, DecidableEq

/-- The stdin sample-driven rebuild stage of the java legacy path
(`some` when the reference reads stdin). -/
def stdinStage (raw : RawDraft) (refSource className expectedTestClassName : Src)
    (usesStdin : Bool) (runner : Src → Src → RunResult) :
    Except GenerationContractError (Option StdinResult) :=
  if usesStdin then
    let stdinSamples := ((raw.sample_inputs.getD []).map normalizeNewlines).filter
      (fun x => decide (jsTrim x ≠ []))
    if stdinSamples.length < 8 then
      .error ⟨"stdin-driven Java problems must include at least 8 non-empty sample_inputs (each is a full stdin transcript). Got ".data ++
        natToDigits stdinSamples.length ++ ".".data,
        some "java.stdin_tests_provide".data⟩
    else
      match computeJavaStdoutSamplesByExecutingReference runner refSource stdinSamples 8 with
      | .error m => .error ⟨m, none⟩
      | .ok stdoutSamples =>
        match buildJavaStdinSampleDrivenJUnitTestSuite expectedTestClassName className
            ((List.range 8).map (fun i =>
              ⟨stdinSamples.getD i [], stdoutSamples.getD i []⟩)) with
        | .error m => .error ⟨m, none⟩
        | .ok suite => .ok (some ⟨suite, stdinSamples.take 8, stdoutSamples.take 8⟩)
  else .ok none

/-- The `||` fallback chain of the structural-topic catch. -/
def structuralFallbackObligation (topics : List Src) : Src :=
  if topics.any (fun t => containsSub "inheritance".data (jsToLower t)) then
    "java.structural_topic.inheritance".data
  else if topics.any (fun t => containsSub "abstraction".data (jsToLower t)) then
    "java.structural_topic.abstraction".data
  else if topics.any (fun t => containsSub "encapsulation".data (jsToLower t)) then
    "java.structural_topic.encapsulation".data
  else if topics.any (fun t => containsSub "composition".data (jsToLower t)) then
    "java.structural_topic.composition".data
  else "java.structural_topic.polymorphism".data

structure SuiteResult where
  testSuite : Src
  rewrites : List Src
deriving Repr, DecidableEq

/-- The test-suite validation stage of the java legacy path: shape
check, brittle-whitespace sanitation, test-class rename, and structural
topic obligations. -/
def suiteStage (slot : ProblemSlot) (testSuite1 expectedTestClassName refSource : Src) :
    Except GenerationContractError SuiteResult :=
  if ¬ isValidJUnit5TestSuite testSuite1 8 then
    .error ⟨"Invalid test_suite for slot ".data ++ natToDigits slot.index ++
      ": must have exactly 8 @Test methods, JUnit 5 imports, no package, and non-trivial assertions.".data,
      none⟩
  else
    let sanStep : Except GenerationContractError Src :=
      if hasBrittleWhitespaceStringExpectations testSuite1 then
        let sanitized := sanitizeJavaStringLiteralsBoundaryWhitespace testSuite1
        if sanitized.2 ∧ ¬ hasBrittleWhitespaceStringExpectations sanitized.1 then
          .ok sanitized.1
        else
          .error ⟨"Invalid test_suite for slot ".data ++ natToDigits slot.index ++
            ": avoid assertEquals() against string literals with leading/trailing whitespace (brittle).".data,
            none⟩
      else .ok testSuite1
    match sanStep with
    | .error e => .error e
    | .ok testSuite2 =>
      let renamed := rewriteJavaTopLevelPublicClassName testSuite2 expectedTestClassName
      let testSuite3 := if renamed.changed then renamed.source else testSuite2
      let rw1 : List Src := if renamed.changed then ["java.rename_test_class".data] else []
      if inferPrimaryClassName testSuite3 expectedTestClassName ≠ expectedTestClassName then
        .error ⟨"Test suite class name \"".data ++
          inferPrimaryClassName testSuite3 expectedTestClassName ++
          "\" must match \"".data ++ expectedTestClassName ++ "\".".data,
          some "java.test_class_matches_target".data⟩
      else
        match assertJavaStructuralTopicRequirements slot.topics refSource testSuite3 with
        | .error innerMsg =>
          .error ⟨"Java topic structure validation failed for slot ".data ++
            natToDigits slot.index ++ ": ".data ++ innerMsg,
            some ((mapJavaStructuralTopicErrorToObligationId innerMsg).getD
              (structuralFallbackObligation slot.topics))⟩
        | .ok _ => .ok ⟨testSuite3, rw1⟩

/-- The unconditional stdout obligations (and the stdin one) of the java
legacy path; they do not look at the slot problem_style. -/
def outputChecks (usesStdin : Bool) (refSource testSuite : Src) :
    Except GenerationContractError Unit :=
  if ¬ javaUsesStdout refSource then
    .error ⟨"For stdout-style Java problems, reference_solution must write the final answer to stdout (System.out.print/println/printf).".data,
      some "java.stdout_solution_prints".data⟩
  else if ¬ javaTestSuiteCapturesStdout testSuite then
    .error ⟨"For stdout-style Java problems, test_suite must capture stdout and assert on the printed output.".data,
      some "java.stdout_tests_capture".data⟩
  else if usesStdin ∧ ¬ javaTestSuiteSetsStdin testSuite then
    .error ⟨"For stdin-driven Java problems, test_suite must set deterministic stdin (System.setIn / ByteArrayInputStream) before executing the code.".data,
      some "java.stdin_tests_provide".data⟩
  else .ok ()

/-- The constraints lock of the java legacy path: a present, non-empty,
differing constraints field is an error, never a rewrite. -/
def constraintsCheck (slot : ProblemSlot) (raw : RawDraft) :
    Except GenerationContractError Unit :=
  let rawConstraints := match raw.constraints with
    | some s => jsTrim s
    | none => []
  if rawConstraints ≠ [] ∧ rawConstraints ≠ slot.constraints then
    .error ⟨"Invalid constraints for slot ".data ++ natToDigits slot.index ++
      ": must match slot.constraints exactly.".data, none⟩
  else .ok ()

/-- The java legacy (single-file) branch of `generateSingleProblem`
(obligations.ts), with the LLM parse result as `raw`, `crypto.randomUUID`
as `freshId` and `runJavaCodeOnly` as `runner`.  The result pairs the
draft with the recorded rewrite ids; the error is the
`GenerationContractError` of the surrounding catch. -/
def generateJavaLegacyDraft (slot : ProblemSlot) (raw : RawDraft) (freshId : Src)
    (runner : Src → Src → RunResult) :
    Except GenerationContractError (JavaDraft × List Src) :=
  let baseId := truthyTrimOr raw.id freshId
  let title := truthyTrimOr raw.title
    ("Problem for ".data ++ (slot.topics.headD "Java".data))
  let description := truthyTrimOr raw.description
    ("Problem description for ".data ++ title ++ ".".data)
  match processStarter slot raw with
  | .error e => .error e
  | .ok st =>
    match processReference slot st.className raw with
    | .error e => .error e
    | .ok rf =>
      let expectedTestClassName := st.className ++ "Test".data
      let usesStdin := javaUsesStdin rf.refSource
      match stdinGate usesStdin slot.topics rf.refSource with
      | .error e => .error e
      | .ok _ =>
        match stdinStage raw rf.refSource st.className expectedTestClassName usesStdin
            runner with
        | .error e => .error e
        | .ok stdinRes =>
          let testSuite1 := match stdinRes with
            | some r => r.testSuite
            | none => truthyTrim raw.test_suite
          let rwStdin : List Src := match stdinRes with
            | some _ => ["java.tests.from_samples".data]
            | none => []
          match suiteStage slot testSuite1 expectedTestClassName rf.refSource with
          | .error e => .error e
          | .ok su =>
            match outputChecks usesStdin rf.refSource su.testSuite with
            | .error e => .error e
            | .ok _ =>
              match constraintsCheck slot raw with
              | .error e => .error e
              | .ok _ =>
                let samplesTriple : List Src × List Src × List Src :=
                  match stdinRes with
                  | some r => (r.sampleInputs, r.sampleOutputs, [])
                  | none =>
                    let samples := coerceNonEmptySamplePairs raw.sample_inputs
                      raw.sample_outputs "stdin".data
                    (samples.sampleInputs, samples.sampleOutputs,
                      if samples.changed then ["samples.autofill".data] else [])
                let draft : JavaDraft :=
                  { id := baseId, title := title, description := description,
                    starter_code := st.starterCode, test_suite := su.testSuite,
                    reference_solution := rf.refSource, constraints := slot.constraints,
                    sample_inputs := samplesTriple.1, sample_outputs := samplesTriple.2.1,
                    difficulty := slot.difficulty,
                    topic_tag := slot.topics.headD "oop".data }
                if ¬ generatedProblemDraftSchemaOk draft then
                  .error ⟨"Generated problem for slot ".data ++ natToDigits slot.index ++
                    " failed schema validation.".data, none⟩
                else
                  .ok (draft, st.rewrites ++ rf.rewrites ++ rwStdin ++ su.rewrites ++
                    samplesTriple.2.2)

/-- The two Java branches of `generateSingleProblem`: the targeted
reference-repair path when a previous java legacy draft is supplied (its
raw Error modelled with no obligation id), else the fresh legacy path. -/
def generateSingleProblemJava (slot : ProblemSlot)
    (repair : Option (JavaDraft × Src)) (raw : RawDraft) (freshId : Src)
    (runner : Src → Src → RunResult) :
    Except GenerationContractError (JavaDraft × List Src) :=
  match repair with
  | some (prev, repairedRef) =>
    (match repairJavaPath slot prev repairedRef with
    | .ok d => .ok (d, [])
    | .error m => .error ⟨m, none⟩)
  | none => generateJavaLegacyDraft slot raw freshId runner

/-- A source whose second public type carries an annotation that itself
contains `public class Evil` among its arguments.  The scanner's
lookahead skips the annotation (paren-aware), so the inner text is never
scanned while the outer `public` is present; once that `public` is
demoted, the main scan walks through the annotation arguments and finds
the inner declaration. -/
def d7src : Src :=
  "public class A \x7b\x7d public @An(public class Evil) class B \x7b\x7d".data

/-- A concrete return-style java slot used to exercise the legacy path. -/
def slot3 : ProblemSlot := ⟨0, .easy, ["arrays".data], "java".data, "return".data, "C".data, 8⟩

def starter3 : Src := "public class Foo \x7b int solve() \x7b return 1; \x7d \x7d".data

def ref3 : Src := "public class Foo \x7b void run() \x7b System.out.println(1); \x7d \x7d".data

def suite3 : Src := "import org.junit.jupiter.api.Test; public class FooTest \x7b @Test void t1()\x7b\x7d @Test void t2()\x7b\x7d @Test void t3()\x7b\x7d @Test void t4()\x7b\x7d @Test void t5()\x7b\x7d @Test void t6()\x7b\x7d @Test void t7()\x7b\x7d @Test void t8()\x7b System.setOut(null); assertEquals(1, 1); \x7d \x7d".data

/-- A well-formed LLM output except that its constraints field reads
"WRONG" while the slot asks for "C". -/
def rawBad : RawDraft := ⟨some "id-1".data, some "T".data, some "D".data, some starter3,
  some suite3, some ref3, some "WRONG".data, some ["1".data], some ["1".data]⟩

/-- The same LLM output with the constraints field absent. -/
def rawGood : RawDraft := ⟨some "id-1".data, some "T".data, some "D".data, some starter3,
  some suite3, some ref3, none, some ["1".data], some ["1".data]⟩

def dummyRunner : Src → Src → RunResult := fun _ _ => ⟨[], []⟩

/-- The draft the legacy path produces from `slot3` and `rawGood`. -/
def c3Draft : JavaDraft := ⟨"id-1".data, "T".data, "D".data, starter3, suite3, ref3,
  "C".data, ["1".data], ["1".data], .easy, "arrays".data⟩

/-- A concrete stdout-style java slot whose reference reads stdin. -/
def slot5 : ProblemSlot := ⟨0, .easy, ["arrays".data], "java".data, "stdout".data, "C".data, 8⟩

def ref5 : Src := "public class Foo \x7b public static void main(String[] args) \x7b java.util.Scanner sc = new java.util.Scanner(System.in); System.out.println(sc.nextLine()); \x7d \x7d".data

/-- An LLM output for `slot5` with eight stdin samples and no test
suite, so the sample-driven rebuild must execute the reference. -/
def raw5 : RawDraft := ⟨some "id-1".data, some "T".data, some "D".data,
  some "public class Foo \x7b\x7d".data, none, some ref5, none,
  some ["a".data, "b".data, "c".data, "d".data, "e".data, "f".data, "g".data, "h".data], none⟩

/-- A runner whose every execution writes "boom" to stderr. -/
def boomRunner : Src → Src → RunResult := fun _ _ => ⟨[], "boom".data⟩

/-- The stdin samples the stdin stage extracts from `raw5`. -/
def stdin5 : List Src := ["a".data, "b".data, "c".data, "d".data, "e".data, "f".data,
  "g".data, "h".data]

/-- A previous java legacy draft whose reference solution and test suite
never touch stdout, used to exercise the targeted repair path. -/
def prev10 : JavaDraft := ⟨"i".data, "t".data, "d".data, "public class Foo \x7b\x7d".data,
  "public class FooTest \x7b\x7d".data, "public class Foo \x7b int y; \x7d".data, "C".data,
  ["1".data], ["1".data], .easy, "arrays".data⟩

def rep10 : Src := "public class Foo \x7b int x; \x7d".data

def rawNone : RawDraft := ⟨none, none, none, none, none, none, none, none, none⟩

theorem insertDescStart_perm (d : PubDecl) (l : List PubDecl) :
    (insertDescStart d l).Perm (d :: l) := by
  induction l with
  | nil => simp [insertDescStart]
  | cons e es ih =>
    rw [insertDescStart]
    split
    · exact List.Perm.refl _
    · exact (ih.cons e).trans (List.Perm.swap d e es)

theorem sortDescStart_perm (l : List PubDecl) : (sortDescStart l).Perm l := by
  induction l with
  | nil => exact List.Perm.refl _
  | cons d ds ih => exact (insertDescStart_perm d (sortDescStart ds)).trans (ih.cons d)

theorem chooseKeptDecl_mem (decls : List PubDecl) (keepName : Option Src) (h : decls ≠ []) :
    ∃ kept, chooseKeptDecl decls keepName = some kept ∧ kept ∈ decls := by
  rcases hE : (match keepName with
      | some k => if k ≠ [] then decls.find? (fun (d : PubDecl) => d.name = k) else none
      | none => (none : Option PubDecl)) with - | d
  · rcases hF : decls.find? (fun d => d.keyword ≠ "interface".data) with - | d
    · have hh : ∃ e, decls.head? = some e ∧ e ∈ decls := by
        match decls, h with
        | e :: es, _ => exact ⟨e, rfl, List.mem_cons_self e es⟩
      obtain ⟨e, he, hmem⟩ := hh
      refine ⟨e, ?_, hmem⟩
      rw [chooseKeptDecl.eq_def]
      simp only [hE, hF, he]
    · refine ⟨d, ?_, List.mem_of_find?_eq_some hF⟩
      rw [chooseKeptDecl.eq_def]
      simp only [hE, hF]
  · refine ⟨d, ?_, ?_⟩
    · rw [chooseKeptDecl.eq_def]
      simp only [hE]
    · match keepName, hE with
      | some k, hE =>
        have hE2 : (if k ≠ [] then decls.find? (fun (d : PubDecl) => d.name = k) else none)
            = some d := hE
        by_cases hk : k ≠ []
        · rw [if_pos hk] at hE2
          exact List.mem_of_find?_eq_some hE2
        · rw [if_neg hk] at hE2
          exact absurd hE2 (by simp)

theorem chooseKeptDecl_keepName (decls : List PubDecl) (k : Src) (hk : k ≠ [])
    (d : PubDecl) (hd : d ∈ decls) (hdk : d.name = k) :
    ∃ kept, chooseKeptDecl decls (some k) = some kept ∧ kept.name = k := by
  have hsome : (decls.find? (fun d => d.name = k)).isSome := by
    rw [List.find?_isSome]
    exact ⟨d, hd, by simp [hdk]⟩
  rcases hF : decls.find? (fun d => d.name = k) with - | kept
  · rw [hF] at hsome; simp at hsome
  · have hkn : kept.name = k := by
      have := List.find?_some hF
      simpa using this
    refine ⟨kept, ?_, hkn⟩
    rw [chooseKeptDecl.eq_def]
    simp only [ne_eq, hk, not_false_eq_true, if_true, hF]

/-- C4, counterexample.  The claim says that for any source with more than
one top-level public type the demote rewrite leaves exactly one; on a
source whose two public declarations share one name the rewrite is a no-op
(the survivor set is selected by name), so both stay public. -/
theorem c4_counterexample :
    1 < (getTopLevelPublicTypeNames
          "public class A \x7b\x7d public class A \x7b\x7d".data).length ∧
    (demoteExtraTopLevelPublicTypes
          "public class A \x7b\x7d public class A \x7b\x7d".data none).changed = false ∧
    (getTopLevelPublicTypeNames
        (demoteExtraTopLevelPublicTypes
          "public class A \x7b\x7d public class A \x7b\x7d".data none).source).length ≠ 1 := by
  decide

/-- C4 (amended): for a source with at most one top-level public type the
demote rewrite is a no-op reporting `changed = false`; for a source with
more than one, the kept declaration is chosen by `keepName` (when it names
a declaration) / first non-interface / first declared, every declaration
whose name differs from the kept name has its `public` token (plus
trailing spaces and tabs) deleted, and the names of the demoted
declarations are exactly those of the non-kept declarations.  Rescanning
the result is not guaranteed to find exactly one public type (see the
counterexample). -/
theorem c4_amended_demote (source : Src) (keepName : Option Src) :
    ((getTopLevelPublicTypeDecls source).length ≤ 1 →
      demoteExtraTopLevelPublicTypes source keepName =
        { source := source, changed := false, keptName := none, demotedNames := [] }) ∧
    (1 < (getTopLevelPublicTypeDecls source).length →
      ∃ kept, kept ∈ getTopLevelPublicTypeDecls source ∧
        chooseKeptDecl (getTopLevelPublicTypeDecls source) keepName = some kept ∧
        (∀ k, keepName = some k → k ≠ [] →
          (∃ d, d ∈ getTopLevelPublicTypeDecls source ∧ d.name = k) → kept.name = k) ∧
        (demoteExtraTopLevelPublicTypes source keepName).demotedNames.Perm
          (((getTopLevelPublicTypeDecls source).filter (fun d => d.name ≠ kept.name)).map (·.name)) ∧
        (demoteExtraTopLevelPublicTypes source keepName).source =
          (sortDescStart ((getTopLevelPublicTypeDecls source).filter (fun d => d.name ≠ kept.name))).foldl
            demoteOne source) := by
  constructor
  · intro h
    rw [demoteExtraTopLevelPublicTypes]
    simp only [if_pos h]
  · intro h
    have hne : ¬ (getTopLevelPublicTypeDecls source).length ≤ 1 := by omega
    have hnil : getTopLevelPublicTypeDecls source ≠ [] := by
      intro hx; rw [hx] at h; simp at h
    obtain ⟨kept, hchoose, hmem⟩ := chooseKeptDecl_mem (getTopLevelPublicTypeDecls source) keepName hnil
    have hksel : ∀ k, keepName = some k → k ≠ [] →
        (∃ d, d ∈ getTopLevelPublicTypeDecls source ∧ d.name = k) → kept.name = k := by
      intro k hkn hk hdex
      obtain ⟨d, hd, hdk⟩ := hdex
      obtain ⟨kept2, hchoose2, hkn2⟩ :=
        chooseKeptDecl_keepName (getTopLevelPublicTypeDecls source) k hk d hd hdk
      rw [hkn] at hchoose
      rw [hchoose] at hchoose2
      injection hchoose2 with h2
      rw [← h2] at hkn2
      exact hkn2
    refine ⟨kept, hmem, hchoose, hksel, ?_, ?_⟩ <;>
      · rw [demoteExtraTopLevelPublicTypes]
        simp only [if_neg hne, hchoose]
        by_cases hfilter :
            (getTopLevelPublicTypeDecls source).filter (fun d => d.name ≠ kept.name) = []
        · simp only [hfilter, List.isEmpty_nil, if_pos]
          simp [sortDescStart]
        · have hE : ((getTopLevelPublicTypeDecls source).filter
              (fun d => d.name ≠ kept.name)).isEmpty = false := by
            rw [List.isEmpty_eq_false_iff_exists_mem]
            rcases hx : (getTopLevelPublicTypeDecls source).filter (fun d => d.name ≠ kept.name) with - | ⟨a, as⟩
            · exact absurd hx hfilter
            · exact ⟨a, by rw [hx]; exact List.mem_cons_self a as⟩
          simp only [hE, Bool.false_eq_true, if_false]
          try exact (sortDescStart_perm _).map _

/-- C4 witness: the amended theorem applied to the concrete
`public class Billing ... public class Main ...` source with
`keepName = Billing` (scenario S4 of the spec). -/
theorem c4_amended_demote_witness :
    ∃ kept, kept ∈ getTopLevelPublicTypeDecls "public class Billing \x7b\x7d\npublic class Main \x7b\x7d".data ∧
      chooseKeptDecl (getTopLevelPublicTypeDecls "public class Billing \x7b\x7d\npublic class Main \x7b\x7d".data)
        (some "Billing".data) = some kept ∧
      (∀ k, some "Billing".data = some k → k ≠ [] →
        (∃ d, d ∈ getTopLevelPublicTypeDecls "public class Billing \x7b\x7d\npublic class Main \x7b\x7d".data ∧
          d.name = k) → kept.name = k) ∧
      (demoteExtraTopLevelPublicTypes "public class Billing \x7b\x7d\npublic class Main \x7b\x7d".data
          (some "Billing".data)).demotedNames.Perm
        (((getTopLevelPublicTypeDecls "public class Billing \x7b\x7d\npublic class Main \x7b\x7d".data).filter
            (fun d => d.name ≠ kept.name)).map (·.name)) ∧
      (demoteExtraTopLevelPublicTypes "public class Billing \x7b\x7d\npublic class Main \x7b\x7d".data
          (some "Billing".data)).source =
        (sortDescStart
            ((getTopLevelPublicTypeDecls "public class Billing \x7b\x7d\npublic class Main \x7b\x7d".data).filter
              (fun d => d.name ≠ kept.name))).foldl demoteOne
          "public class Billing \x7b\x7d\npublic class Main \x7b\x7d".data :=
  (c4_amended_demote "public class Billing \x7b\x7d\npublic class Main \x7b\x7d".data
    (some "Billing".data)).2 (by decide)

/-! ## C7 — idempotence of the mechanical rewrites -/

theorem demote_changed_false_source (source : Src) (keepName : Option Src)
    (h : (demoteExtraTopLevelPublicTypes source keepName).changed = false) :
    (demoteExtraTopLevelPublicTypes source keepName).source = source := by
  by_cases h1 : (getTopLevelPublicTypeDecls source).length ≤ 1
  · rw [demoteExtraTopLevelPublicTypes]
    simp only [if_pos h1]
  · rcases hc : chooseKeptDecl (getTopLevelPublicTypeDecls source) keepName with - | kept
    · rw [demoteExtraTopLevelPublicTypes]
      simp only [if_neg h1, hc]
    · by_cases h2 : ((getTopLevelPublicTypeDecls source).filter
          (fun d => d.name ≠ kept.name)).isEmpty = true
      · rw [demoteExtraTopLevelPublicTypes]
        simp only [if_neg h1, hc, h2, if_pos]
      · have h2f : ((getTopLevelPublicTypeDecls source).filter
            (fun d => d.name ≠ kept.name)).isEmpty = false := by
          simpa using h2
        rw [demoteExtraTopLevelPublicTypes] at h ⊢
        simp only [if_neg h1, hc, h2f, Bool.false_eq_true, if_false] at h ⊢
        simpa using h

theorem promote_changed_false_source (source : Src) (keepName : Option Src)
    (h : (promoteOneTopLevelTypeToPublic source keepName).changed = false) :
    (promoteOneTopLevelTypeToPublic source keepName).source = source := by
  by_cases h1 : 1 ≤ (getTopLevelPublicTypeDecls source).length
  · rw [promoteOneTopLevelTypeToPublic]
    simp only [ge_iff_le, if_pos h1]
  · rcases hc : choosePromotedDecl (getTopLevelTypeDecls source) keepName with - | chosen
    · rw [promoteOneTopLevelTypeToPublic]
      simp only [ge_iff_le, if_neg h1, hc]
    · rw [promoteOneTopLevelTypeToPublic] at h ⊢
      simp only [ge_iff_le, if_neg h1, hc] at h ⊢
      simpa using h

theorem rename_changed_false_source (source expectedName : Src)
    (h : (rewriteJavaTopLevelPublicClassName source expectedName).changed = false) :
    (rewriteJavaTopLevelPublicClassName source expectedName).source = source := by
  by_cases h1 : jsTrim expectedName = []
  · rw [rewriteJavaTopLevelPublicClassName]
    simp only [if_pos h1]
  · rcases hf : findPublicClass source none 0 with - | ⟨p, len, prev⟩
    · rw [rewriteJavaTopLevelPublicClassName]
      simp only [if_neg h1, hf]
    · by_cases h2 : prev = jsTrim expectedName
      · rw [rewriteJavaTopLevelPublicClassName]
        simp only [if_neg h1, hf, h2, if_pos]
      · rw [rewriteJavaTopLevelPublicClassName] at h ⊢
        simp only [if_neg h1, hf, h2, if_neg] at h ⊢
        simpa using h

/-- C7, counterexample.  None of the three mechanical rewrites is
idempotent on the source text.  Promote: on a source whose only type
declaration is preceded by an annotation with unbalanced parentheses,
the first application inserts `public ` where the public-type scanner
cannot see it (inside the annotation arguments of the lookahead), so a
second application inserts `public ` again.  Demote: on `d7src` with
`keepName = A` the first application strips the `public` of class B;
that `public` had carried the scanner's paren-aware annotation lookahead
past `@An(public class Evil)`, so the rescan of the demoted source walks
into the annotation arguments, finds the inner `public class Evil` at
brace depth 0, and the second application demotes it too.  Rename: with
`expectedName = "A B"` (trimmed non-empty, so not rejected), the first
application rewrites `public class X` to `public class A B`; the second
one captures only the identifier `A`, sees `A ≠ A B`, and rewrites again
to `public class A B B`. -/
theorem c7_counterexample :
    (promoteOneTopLevelTypeToPublic
        (promoteOneTopLevelTypeToPublic "public @A(() class X\x7b\x7d".data none).source none).source ≠
      (promoteOneTopLevelTypeToPublic "public @A(() class X\x7b\x7d".data none).source ∧
    (demoteExtraTopLevelPublicTypes
        (demoteExtraTopLevelPublicTypes d7src (some "A".data)).source
        (some "A".data)).source ≠
      (demoteExtraTopLevelPublicTypes d7src (some "A".data)).source ∧
    (rewriteJavaTopLevelPublicClassName
        (rewriteJavaTopLevelPublicClassName "public class X \x7b\x7d".data "A B".data).source
        "A B".data).source ≠
      (rewriteJavaTopLevelPublicClassName "public class X \x7b\x7d".data "A B".data).source :=
  ⟨by decide, by decide, by decide⟩

/-- C7 (amended): each mechanical rewrite whose application reports
`changed = false` returns the source unchanged, hence re-applying any
rewrite after an unchanged application yields the identical result; full
idempotence after a changing application holds for none of the three
rewrites (the counterexample refutes it for promote, demote and rename
alike). -/
theorem c7_amended_rewrites_noop_stable (source expectedName : Src) (keepName : Option Src) :
    ((demoteExtraTopLevelPublicTypes source keepName).changed = false →
      demoteExtraTopLevelPublicTypes (demoteExtraTopLevelPublicTypes source keepName).source keepName
        = demoteExtraTopLevelPublicTypes source keepName) ∧
    ((promoteOneTopLevelTypeToPublic source keepName).changed = false →
      promoteOneTopLevelTypeToPublic (promoteOneTopLevelTypeToPublic source keepName).source keepName
        = promoteOneTopLevelTypeToPublic source keepName) ∧
    ((rewriteJavaTopLevelPublicClassName source expectedName).changed = false →
      rewriteJavaTopLevelPublicClassName (rewriteJavaTopLevelPublicClassName source expectedName).source
          expectedName
        = rewriteJavaTopLevelPublicClassName source expectedName) := by
  refine ⟨fun h => ?_, fun h => ?_, fun h => ?_⟩
  · rw [demote_changed_false_source source keepName h]
  · rw [promote_changed_false_source source keepName h]
  · rw [rename_changed_false_source source expectedName h]

/-- C7 witness: all three rewrites are no-ops on
`public class A ...` with `expectedName = A`, and re-application is
stable there. -/
theorem c7_amended_rewrites_noop_stable_witness :
    demoteExtraTopLevelPublicTypes
        (demoteExtraTopLevelPublicTypes "public class A \x7b\x7d".data none).source none
      = demoteExtraTopLevelPublicTypes "public class A \x7b\x7d".data none ∧
    promoteOneTopLevelTypeToPublic
        (promoteOneTopLevelTypeToPublic "public class A \x7b\x7d".data none).source none
      = promoteOneTopLevelTypeToPublic "public class A \x7b\x7d".data none ∧
    rewriteJavaTopLevelPublicClassName
        (rewriteJavaTopLevelPublicClassName "public class A \x7b\x7d".data "A".data).source "A".data
      = rewriteJavaTopLevelPublicClassName "public class A \x7b\x7d".data "A".data := by
  obtain ⟨h1, h2, h3⟩ := c7_amended_rewrites_noop_stable "public class A \x7b\x7d".data "A".data none
  exact ⟨h1 (by decide), h2 (by decide), h3 (by decide)⟩

/-! ## C8 — scanner invariance under insertion into string literals -/

/-- C8, counterexample.  Inserting `class Foo \x7b\x7d` inside a string
literal can change the scan result: the original source opens a string
literal whose second character is an escaping backslash, so inserting the
text right after the backslash makes its first character the escaped one,
the following `"` then closes the literal early and the trailing
`public class A` is scanned as code. -/
theorem c8_counterexample :
    getTopLevelPublicTypeNames ("\"\\".data ++ "\" public class A \x7b\x7d \"".data) = [] ∧
    getTopLevelPublicTypeNames
        ("\"\\".data ++ "class Foo \x7b\x7d".data ++ "\" public class A \x7b\x7d \"".data)
      = ["A".data] := by
  decide

/-- C8 (amended): the top-level public type scan is invariant under the
insertion of text free of `"` and `\` characters at any point inside a
string literal other than immediately after an escaping backslash, and
likewise for text free of apostrophes and `\` inside a character literal.
The scanner hypotheses (`inString`/`inChar` true, `escaped` false) are
exactly the statement that the insertion point lies inside the literal
and not right after an unconsumed escape; the scan on the inserted text
consumes one character and one unit of fuel per step, keeps the state,
and records no declaration, so the two scans agree (with the positions of
the continuation shifted by the inserted length). -/
theorem c8_amended_literal_insertion :
    (∀ ins : Src, (∀ c ∈ ins, c ≠ '"' ∧ c ≠ '\\') →
      ∀ (fuel : Nat) (rest : Src) (pos : Nat) (st : ScanState) (depth : Nat),
        st.inLineComment = false → st.inBlockComment = false → st.inString = true →
        st.escaped = false →
        scanPubDecls (ins.length + fuel) (ins ++ rest) pos st depth
          = scanPubDecls fuel rest (pos + ins.length) st depth) ∧
    (∀ ins : Src, (∀ c ∈ ins, c ≠ squote ∧ c ≠ '\\') →
      ∀ (fuel : Nat) (rest : Src) (pos : Nat) (st : ScanState) (depth : Nat),
        st.inLineComment = false → st.inBlockComment = false → st.inString = false →
        st.inChar = true → st.escaped = false →
        scanPubDecls (ins.length + fuel) (ins ++ rest) pos st depth
          = scanPubDecls fuel rest (pos + ins.length) st depth) := by
  constructor
  · intro ins
    induction ins with
    | nil => intro _ fuel rest pos st depth _ _ _ _; simp
    | cons c ins ih =>
      intro hq fuel rest pos st depth hlc hbc hstr hesc
      obtain ⟨hc1, hc2⟩ := hq c (List.mem_cons_self c ins)
      have hlen : (c :: ins).length + fuel = (ins.length + fuel) + 1 := by
        simp [Nat.add_assoc, Nat.add_comm]
      rw [hlen, List.cons_append, scanPubDecls.eq_3]
      simp only [hlc, hbc, hstr, hesc, Bool.false_eq_true, if_false, if_true, hc1, hc2,
        if_neg, ite_false]
      rw [ih (fun c hc => hq c (List.mem_cons_of_mem _ hc)) fuel rest (pos + 1) st depth
        hlc hbc hstr hesc]
      have harith : pos + 1 + ins.length = pos + (c :: ins).length := by
        simp only [List.length_cons]
        omega
      rw [harith]
  · intro ins
    induction ins with
    | nil => intro _ fuel rest pos st depth _ _ _ _ _; simp
    | cons c ins ih =>
      intro hq fuel rest pos st depth hlc hbc hstr hch hesc
      obtain ⟨hc1, hc2⟩ := hq c (List.mem_cons_self c ins)
      have hlen : (c :: ins).length + fuel = (ins.length + fuel) + 1 := by
        simp [Nat.add_assoc, Nat.add_comm]
      rw [hlen, List.cons_append, scanPubDecls.eq_3]
      simp only [hlc, hbc, hstr, hch, hesc, Bool.false_eq_true, if_false, if_true, hc1, hc2,
        if_neg, ite_false]
      rw [ih (fun c hc => hq c (List.mem_cons_of_mem _ hc)) fuel rest (pos + 1) st depth
        hlc hbc hstr hch hesc]
      have harith : pos + 1 + ins.length = pos + (c :: ins).length := by
        simp only [List.length_cons]
        omega
      rw [harith]

/-- C8 witness: the amended theorem applied to the inserted text
`class Foo \x7b\x7d` (no quotes or backslashes), a concrete continuation,
and the scanner state that holds inside an open string literal. -/
theorem c8_amended_literal_insertion_witness :
    scanPubDecls ("class Foo \x7b\x7d".data.length + 42)
        ("class Foo \x7b\x7d".data ++ "\" public class A \x7b\x7d \"".data) 2
        { inLineComment := false, inBlockComment := false, inString := true, inChar := false,
          escaped := false } 0
      = scanPubDecls 42 "\" public class A \x7b\x7d \"".data
          (2 + "class Foo \x7b\x7d".data.length)
          { inLineComment := false, inBlockComment := false, inString := true, inChar := false,
            escaped := false } 0 :=
  c8_amended_literal_insertion.1 "class Foo \x7b\x7d".data (by decide) 42
    "\" public class A \x7b\x7d \"".data 2 _ 0 rfl rfl rfl rfl

/-! ## planner.ts — deterministic plan derivation -/

theorem flatMap_replicate_const (d : Difficulty) :
    ∀ m : List DifficultyPlanEntry, (∀ e ∈ m, e.difficulty = d) →
      m.flatMap (fun item => List.replicate item.count item.difficulty)
        = List.replicate ((m.map (·.count)).sum) d := by
  intro m
  induction m with
  | nil => intro _; rfl
  | cons e es ih =>
    intro h
    have hd : e.difficulty = d := h e (List.mem_cons_self e es)
    rw [List.flatMap_cons, ih (fun x hx => h x (List.mem_cons_of_mem e hx)), hd]
    rw [List.map_cons, List.sum_cons, List.replicate_add]

theorem expand_eq_replicates (spec : ActivitySpec) :
    expandDifficultySlots spec =
      List.replicate (((spec.difficulty_plan.filter
        (fun e => e.difficulty = Difficulty.easy)).map (·.count)).sum) Difficulty.easy ++
      List.replicate (((spec.difficulty_plan.filter
        (fun e => e.difficulty = Difficulty.medium)).map (·.count)).sum) Difficulty.medium ++
      List.replicate (((spec.difficulty_plan.filter
        (fun e => e.difficulty = Difficulty.hard)).map (·.count)).sum) Difficulty.hard := by
  rw [expandDifficultySlots]
  simp only [List.flatMap_append]
  rw [flatMap_replicate_const Difficulty.easy _ (fun e he => by
        simpa using (List.of_mem_filter he)),
    flatMap_replicate_const Difficulty.medium _ (fun e he => by
        simpa using (List.of_mem_filter he)),
    flatMap_replicate_const Difficulty.hard _ (fun e he => by
        simpa using (List.of_mem_filter he))]

theorem count_partition_sum (l : List DifficultyPlanEntry) :
    ((l.filter (fun e => e.difficulty = Difficulty.easy)).map (·.count)).sum +
    ((l.filter (fun e => e.difficulty = Difficulty.medium)).map (·.count)).sum +
    ((l.filter (fun e => e.difficulty = Difficulty.hard)).map (·.count)).sum
      = (l.map (·.count)).sum := by
  induction l with
  | nil => rfl
  | cons e es ih =>
    rcases he : e.difficulty <;>
      simp [List.filter_cons, he] <;>
      omega

theorem expand_length (spec : ActivitySpec) :
    (expandDifficultySlots spec).length = (spec.difficulty_plan.map (·.count)).sum := by
  rw [expand_eq_replicates]
  simp only [List.length_append, List.length_replicate]
  exact count_partition_sum spec.difficulty_plan

theorem pairwise_replicate_le (n : Nat) (d : Difficulty) :
    (List.replicate n d).Pairwise (fun a b => difficultyOrder a ≤ difficultyOrder b) := by
  induction n with
  | zero => exact List.Pairwise.nil
  | succ n ih =>
    rw [List.replicate_succ]
    exact List.Pairwise.cons
      (fun b hb => by rw [List.eq_of_mem_replicate hb]) ih

theorem expand_sorted (spec : ActivitySpec) :
    (expandDifficultySlots spec).Pairwise (fun a b => difficultyOrder a ≤ difficultyOrder b) := by
  rw [expand_eq_replicates, List.pairwise_append]
  refine ⟨?_, pairwise_replicate_le _ _, ?_⟩
  · rw [List.pairwise_append]
    refine ⟨pairwise_replicate_le _ _, pairwise_replicate_le _ _, ?_⟩
    intro a ha b hb
    rw [List.eq_of_mem_replicate ha, List.eq_of_mem_replicate hb]
    decide
  · intro a ha b hb
    rw [List.eq_of_mem_replicate hb]
    rcases List.mem_append.mp ha with ha | ha <;>
      rw [List.eq_of_mem_replicate ha] <;> decide

theorem expand_count (spec : ActivitySpec) (d : Difficulty) :
    (expandDifficultySlots spec).count d =
      ((spec.difficulty_plan.filter (fun e => e.difficulty = d)).map (·.count)).sum := by
  rw [expand_eq_replicates]
  rcases d <;>
    simp [List.count_append, List.count_replicate]

theorem topicsForSlot_length (tags : List Src) (d : Difficulty) (i : Nat) :
    1 ≤ (topicsForSlot tags d i).length ∧ (topicsForSlot tags d i).length ≤ 2 := by
  rw [topicsForSlot]
  split
  · dsimp only
    split <;> simp
  · simp

theorem distributeTopicsGo_ok_inv (tags : List Src) :
    ∀ (ds : List Difficulty) (i : Nat) (out : List (List Src)),
      distributeTopicsGo tags ds i = .ok out →
      out.length = ds.length ∧
      ∀ k, k < ds.length → out[k]? = some (topicsForSlot tags (ds.getD k .easy) (i + k)) := by
  intro ds
  induction ds with
  | nil =>
    intro i out h
    rw [distributeTopicsGo] at h
    injection h with h
    subst h
    exact ⟨rfl, by intro k hk; exact absurd hk (by simp)⟩
  | cons d ds ih =>
    intro i out h
    rw [distributeTopicsGo] at h
    split at h
    · exact absurd h (by simp)
    · rcases hrec : distributeTopicsGo tags ds (i + 1) with e | rest <;> rw [hrec] at h
      · exact absurd h (by simp)
      · injection h with h
        subst h
        obtain ⟨hlen, hget⟩ := ih (i + 1) rest hrec
        refine ⟨by simp [hlen], ?_⟩
        intro k hk
        match k with
        | 0 => simp
        | k + 1 =>
          rw [List.getElem?_cons_succ]
          have := hget k (by simpa using hk)
          rw [this]
          have harith : i + 1 + k = i + (k + 1) := by omega
          rw [harith]
          rfl

theorem distributeTopicsGo_ok_exists (tags : List Src) (htags : tags ≠ [])
    (hne : ∀ t ∈ tags, t ≠ []) :
    ∀ (ds : List Difficulty) (i : Nat), ∃ out, distributeTopicsGo tags ds i = .ok out := by
  intro ds
  induction ds with
  | nil => intro i; exact ⟨[], rfl⟩
  | cons d ds ih =>
    intro i
    have hlen : 0 < tags.length := List.length_pos.mpr htags
    have hidx : i % tags.length < tags.length := Nat.mod_lt _ hlen
    have hmem : tags.getD (i % tags.length) [] ∈ tags := by
      rw [List.getD_eq_getElem?_getD, List.getElem?_eq_getElem hidx]
      exact List.getElem_mem hidx
    have hprim : tags.getD (i % tags.length) [] ≠ [] := hne _ hmem
    obtain ⟨rest, hrest⟩ := ih (i + 1)
    refine ⟨topicsForSlot tags d i :: rest, ?_⟩
    rw [distributeTopicsGo]
    rw [if_neg hprim, hrest]

theorem mapIdx_map_eq_self {α β : Type} (l : List α) (f : Nat → α → β) (g : β → α)
    (h : ∀ i a, g (f i a) = a) : (l.mapIdx f).map g = l := by
  apply List.ext_getElem?
  intro k
  rw [List.getElem?_map, List.getElem?_mapIdx]
  cases l[k]? with
  | none => rfl
  | some a => simp [h]

theorem distributeTopics_ok (spec : ActivitySpec) (difficulties : List Difficulty)
    (fc : Option (List Src)) (htags : spec.topic_tags ≠ [])
    (hne : ∀ t ∈ spec.topic_tags, t ≠ []) :
    ∃ assigns, distributeTopics spec difficulties fc = .ok assigns ∧
      assigns.length = difficulties.length ∧
      ∀ k, k < difficulties.length →
        1 ≤ (assigns.getD k []).length ∧ (assigns.getD k []).length ≤ 2 := by
  have hcase : ∀ tags : List Src, tags ≠ [] → (∀ t ∈ tags, t ≠ []) →
      ∃ assigns, (if tags.isEmpty then
          (.error "topic_tags cannot be empty when deriving ProblemPlan." :
            Except String (List (List Src)))
        else distributeTopicsGo tags difficulties 0) = .ok assigns ∧
        assigns.length = difficulties.length ∧
        ∀ k, k < difficulties.length →
          1 ≤ (assigns.getD k []).length ∧ (assigns.getD k []).length ≤ 2 := by
    intro tags ht hn
    have hie : tags.isEmpty = false := by
      rcases tags with - | ⟨a, as⟩
      · exact absurd rfl ht
      · rfl
    rw [hie]
    obtain ⟨assigns, hgo⟩ := distributeTopicsGo_ok_exists tags ht hn difficulties 0
    obtain ⟨halen, haget⟩ := distributeTopicsGo_ok_inv tags difficulties 0 assigns hgo
    refine ⟨assigns, by simpa using hgo, halen, ?_⟩
    intro k hk
    have := haget k hk
    rw [List.getD_eq_getElem?_getD, this]
    exact topicsForSlot_length tags _ _
  have hT : distributeTopics spec difficulties fc =
      (if (if (match fc with
            | some l => l.filter (fun t => spec.topic_tags.contains t)
            | none => ([] : List Src)).isEmpty then spec.topic_tags
          else (match fc with
            | some l => l.filter (fun t => spec.topic_tags.contains t)
            | none => ([] : List Src))).isEmpty then
        (.error "topic_tags cannot be empty when deriving ProblemPlan." :
          Except String (List (List Src)))
      else distributeTopicsGo (if (match fc with
            | some l => l.filter (fun t => spec.topic_tags.contains t)
            | none => ([] : List Src)).isEmpty then spec.topic_tags
          else (match fc with
            | some l => l.filter (fun t => spec.topic_tags.contains t)
            | none => ([] : List Src))) difficulties 0) := rfl
  rw [hT]
  by_cases hF : (match fc with
      | some l => l.filter (fun t => spec.topic_tags.contains t)
      | none => ([] : List Src)) = []
  · have hFb : (match fc with
        | some l => l.filter (fun t => spec.topic_tags.contains t)
        | none => ([] : List Src)).isEmpty = true := by rw [hF]; rfl
    rw [hFb]
    exact hcase spec.topic_tags htags hne
  · have hFb : (match fc with
        | some l => l.filter (fun t => spec.topic_tags.contains t)
        | none => ([] : List Src)).isEmpty = false := by
      rcases hM : (match fc with
          | some l => l.filter (fun t => spec.topic_tags.contains t)
          | none => ([] : List Src)) with - | ⟨a, as⟩
      · exact absurd hM hF
      · rw [hM]
        rfl
    rw [hFb]
    refine hcase _ hF ?_
    intro t ht
    match fc, ht with
    | some l, ht =>
      have hmem := List.mem_filter.mp ht
      exact hne t (List.mem_of_elem_eq_true hmem.2)

theorem deriveProblemPlan_none_ok_inv (spec : ActivitySpec) (plan : List ProblemSlot)
    (h : deriveProblemPlan spec none = .ok plan) :
    ∃ assigns, distributeTopicsGo spec.topic_tags (expandDifficultySlots spec) 0 = .ok assigns ∧
      plan = (expandDifficultySlots spec).mapIdx (fun index difficulty =>
        { index := index, difficulty := difficulty, topics := assigns.getD index [],
          language := spec.language, problem_style := spec.problem_style,
          constraints := spec.constraints, test_case_count := spec.test_case_count }) := by
  rw [deriveProblemPlan.eq_def] at h
  split at h
  · exact absurd h (by simp)
  · dsimp only at h
    split at h
    · exact absurd h (by simp)
    · rw [distributeTopics.eq_def] at h
      simp only [List.filter_nil, List.isEmpty_nil, if_true] at h
      by_cases hte : spec.topic_tags.isEmpty
      · rw [if_pos hte] at h
        exact absurd h (by simp)
      · rw [if_neg hte] at h
        rcases hgo : distributeTopicsGo spec.topic_tags (expandDifficultySlots spec) 0
            with e | assigns <;> rw [hgo] at h
        · exact absurd h (by simp)
        · refine ⟨assigns, rfl, ?_⟩
          split at h
          · exact absurd h (by simp)
          next ta heq =>
            injection heq with heq
            subst heq
            split at h
            · injection h with h
              exact h.symm
            · exact absurd h (by simp)

/-- C2: for every valid ActivitySpec the planner succeeds and produces
exactly `problem_count` slots; the slot difficulties are the expansion of
`difficulty_plan` sorted easy < medium < hard (non-decreasing, with each
difficulty occurring as often as the sum of its plan counts); and every
slot copies the spec constraints (and language / style / test case count)
verbatim. -/
theorem c2_planner_spec (spec : ActivitySpec) (policy : Option PedagogyPolicy)
    (h1 : 1 ≤ spec.problem_count) (h7 : spec.problem_count ≤ 7)
    (hsum : (spec.difficulty_plan.map (·.count)).sum = spec.problem_count)
    (htags : spec.topic_tags ≠ []) (htagne : ∀ t ∈ spec.topic_tags, t ≠ []) :
    ∃ plan, deriveProblemPlan spec policy = .ok plan ∧
      plan.length = spec.problem_count ∧
      plan.map (·.difficulty) = expandDifficultySlots spec ∧
      (plan.map (·.difficulty)).Pairwise (fun a b => difficultyOrder a ≤ difficultyOrder b) ∧
      (∀ d, (plan.map (·.difficulty)).count d =
        ((spec.difficulty_plan.filter (fun e => e.difficulty = d)).map (·.count)).sum) ∧
      (∀ s ∈ plan, s.constraints = spec.constraints ∧ s.language = spec.language ∧
        s.problem_style = spec.problem_style ∧ s.test_case_count = spec.test_case_count) := by
  have hlen : (expandDifficultySlots spec).length = spec.problem_count := by
    rw [expand_length, hsum]
  obtain ⟨assigns, hdt, halen, hak⟩ := distributeTopics_ok spec (expandDifficultySlots spec)
    (some (match policy with
      | some p => if p.mode = "guided".data then p.focus_concepts.getD [] else []
      | none => [])) htags htagne
  have hschema : problemPlanSchemaOk ((expandDifficultySlots spec).mapIdx (fun index difficulty =>
      { index := index, difficulty := difficulty, topics := assigns.getD index [],
        language := spec.language, problem_style := spec.problem_style,
        constraints := spec.constraints, test_case_count := spec.test_case_count })) = true := by
    rw [problemPlanSchemaOk, List.all_eq_true]
    intro s hs
    obtain ⟨k, hk⟩ := List.mem_iff_getElem?.mp hs
    rw [List.getElem?_mapIdx] at hk
    rcases hdk : (expandDifficultySlots spec)[k]? with - | d <;> rw [hdk] at hk
    · exact absurd hk (by simp)
    · have hklt : k < (expandDifficultySlots spec).length :=
        (List.getElem?_eq_some_iff.mp hdk).1
      obtain ⟨hb1, hb2⟩ := hak k hklt
      injection hk with hk
      rw [← hk]
      simp only [Bool.and_eq_true, decide_eq_true_eq]
      exact ⟨hb1, hb2⟩
  refine ⟨(expandDifficultySlots spec).mapIdx (fun index difficulty =>
      { index := index, difficulty := difficulty, topics := assigns.getD index [],
        language := spec.language, problem_style := spec.problem_style,
        constraints := spec.constraints, test_case_count := spec.test_case_count }),
    ?_, ?_, ?_, ?_, ?_, ?_⟩
  · rw [deriveProblemPlan.eq_def]
    rw [if_neg (by omega)]
    dsimp only
    rw [if_neg (by simp [hlen])]
    rw [hdt]
    split
    next e heq => exact absurd heq (by simp)
    next ta heq =>
      injection heq with heq
      subst heq
      rw [if_pos hschema]
  · rw [List.length_mapIdx, hlen]
  · exact mapIdx_map_eq_self _ _ _ (fun i a => rfl)
  · rw [mapIdx_map_eq_self _ _ _ (fun i a => rfl)]
    exact expand_sorted spec
  · intro d
    rw [mapIdx_map_eq_self _ _ _ (fun i a => rfl)]
    exact expand_count spec d
  · intro s hs
    obtain ⟨k, hk⟩ := List.mem_iff_getElem?.mp hs
    rw [List.getElem?_mapIdx] at hk
    rcases hdk : (expandDifficultySlots spec)[k]? with - | d <;> rw [hdk] at hk
    · exact absurd hk (by simp)
    · injection hk with hk
      rw [← hk]
      exact ⟨rfl, rfl, rfl, rfl⟩

/-- Witness for c2_planner_spec: the concrete three-slot java spec with
one easy, one medium and one hard problem over tags a, b, c. -/
theorem c2_planner_spec_witness :
    ∃ plan : List ProblemSlot, deriveProblemPlan (⟨"java".data, 3,
        [⟨Difficulty.easy, 1⟩, ⟨Difficulty.medium, 1⟩, ⟨Difficulty.hard, 1⟩],
        ["a".data, "b".data, "c".data], "return".data, "k".data, 8⟩ : ActivitySpec)
        none = .ok plan ∧
      plan.length = 3 ∧
      plan.map (fun s => s.difficulty) = expandDifficultySlots (⟨"java".data, 3,
        [⟨Difficulty.easy, 1⟩, ⟨Difficulty.medium, 1⟩, ⟨Difficulty.hard, 1⟩],
        ["a".data, "b".data, "c".data], "return".data, "k".data, 8⟩ : ActivitySpec) ∧
      (plan.map (fun s => s.difficulty)).Pairwise
        (fun a b => difficultyOrder a ≤ difficultyOrder b) ∧
      (∀ d, (plan.map (fun s => s.difficulty)).count d =
        ((([⟨Difficulty.easy, 1⟩, ⟨Difficulty.medium, 1⟩, ⟨Difficulty.hard, 1⟩] :
          List DifficultyPlanEntry).filter (fun e => e.difficulty = d)).map
            (fun e => e.count)).sum) ∧
      (∀ s ∈ plan, s.constraints = "k".data ∧ s.language = "java".data ∧
        s.problem_style = "return".data ∧ s.test_case_count = 8) :=
  c2_planner_spec (⟨"java".data, 3,
      [⟨Difficulty.easy, 1⟩, ⟨Difficulty.medium, 1⟩, ⟨Difficulty.hard, 1⟩],
      ["a".data, "b".data, "c".data], "return".data, "k".data, 8⟩ : ActivitySpec)
    none (by decide) (by decide) (by decide) (by decide) (by decide)

theorem topicsForSlot_hard_eq (tags : List Src) (i : Nat) (h2 : 2 ≤ tags.length) :
    topicsForSlot tags Difficulty.hard i =
      (if tags.getD ((i + 1) % tags.length) [] ≠ [] ∧
          tags.getD ((i + 1) % tags.length) [] ≠ tags.getD (i % tags.length) [] then
        [tags.getD (i % tags.length) [], tags.getD ((i + 1) % tags.length) []]
      else if tags.getD ((i + 2) % tags.length) [] ≠ [] ∧
          tags.getD ((i + 2) % tags.length) [] ≠ tags.getD (i % tags.length) [] then
        [tags.getD (i % tags.length) [], tags.getD ((i + 2) % tags.length) []]
      else [tags.getD (i % tags.length) []]) := by
  rw [topicsForSlot]
  dsimp only
  rw [if_pos (⟨rfl, h2⟩ : Difficulty.hard = Difficulty.hard ∧ 2 ≤ tags.length)]
  by_cases h1 : tags.getD ((i + 1) % tags.length) [] ≠ [] ∧
      tags.getD ((i + 1) % tags.length) [] ≠ tags.getD (i % tags.length) []
  · rw [if_pos h1]
    rw [if_pos h1]
  · rw [if_neg h1]
    rw [if_neg h1]
    by_cases hc2 : tags.getD ((i + 2) % tags.length) [] ≠ [] ∧
        tags.getD ((i + 2) % tags.length) [] ≠ tags.getD (i % tags.length) []
    · rw [if_pos hc2]
      rw [if_pos hc2]
    · rw [if_neg hc2]
      rw [if_neg hc2]

/-- C6: counterexample.  With topic tags x, x, x, y and a single hard
slot, the code checks only the next two round-robin candidates
tags[1] and tags[2] (both equal to the primary x), so it attaches no
secondary topic even though the distinct tag y is available further on;
the claim says it skips forward until a distinct tag is found. -/
theorem c6_counterexample :
    deriveProblemPlan (⟨"java".data, 1, [⟨Difficulty.hard, 1⟩],
        ["x".data, "x".data, "x".data, "y".data], "return".data, "c".data, 8⟩ : ActivitySpec)
      none =
      .ok [⟨0, Difficulty.hard, ["x".data], "java".data, "return".data, "c".data, 8⟩] ∧
    ("y".data ∈ (["x".data, "x".data, "x".data, "y".data] : List Src) ∧
      "y".data ≠ "x".data ∧
      2 ≤ (["x".data, "x".data, "x".data, "y".data] : List Src).length) :=
  ⟨rfl, by decide⟩

/-- C6 (amended): for a hard slot at index k of a successful plan with at
least two topic tags, the slot topics are the primary round-robin tag
followed by the first of only the next two round-robin candidates
tags[(k+1) % n] and tags[(k+2) % n] that is non-empty and distinct from
the primary, and just the primary when both candidates fail this test
(even if a distinct tag exists elsewhere); when the tags are pairwise
distinct and non-empty the secondary always exists and equals the next
round-robin tag. -/
theorem c6_amended_secondary_topics (spec : ActivitySpec) (plan : List ProblemSlot)
    (h : deriveProblemPlan spec none = .ok plan) (k : Nat) (s : ProblemSlot)
    (hs : plan[k]? = some s) (hhard : s.difficulty = Difficulty.hard)
    (h2 : 2 ≤ spec.topic_tags.length) :
    (s.topics =
      (if spec.topic_tags.getD ((k + 1) % spec.topic_tags.length) [] ≠ [] ∧
          spec.topic_tags.getD ((k + 1) % spec.topic_tags.length) [] ≠
            spec.topic_tags.getD (k % spec.topic_tags.length) [] then
        [spec.topic_tags.getD (k % spec.topic_tags.length) [],
          spec.topic_tags.getD ((k + 1) % spec.topic_tags.length) []]
      else if spec.topic_tags.getD ((k + 2) % spec.topic_tags.length) [] ≠ [] ∧
          spec.topic_tags.getD ((k + 2) % spec.topic_tags.length) [] ≠
            spec.topic_tags.getD (k % spec.topic_tags.length) [] then
        [spec.topic_tags.getD (k % spec.topic_tags.length) [],
          spec.topic_tags.getD ((k + 2) % spec.topic_tags.length) []]
      else [spec.topic_tags.getD (k % spec.topic_tags.length) []])) ∧
    (spec.topic_tags.Nodup → (∀ t ∈ spec.topic_tags, t ≠ []) →
      s.topics = [spec.topic_tags.getD (k % spec.topic_tags.length) [],
        spec.topic_tags.getD ((k + 1) % spec.topic_tags.length) []] ∧
      spec.topic_tags.getD ((k + 1) % spec.topic_tags.length) [] ≠
        spec.topic_tags.getD (k % spec.topic_tags.length) []) := by
  obtain ⟨assigns, hgo, hplan⟩ := deriveProblemPlan_none_ok_inv spec plan h
  rw [hplan] at hs
  rw [List.getElem?_mapIdx] at hs
  rcases hdk : (expandDifficultySlots spec)[k]? with - | d <;> rw [hdk] at hs
  · exact absurd hs (by simp)
  · have hklt : k < (expandDifficultySlots spec).length :=
      (List.getElem?_eq_some_iff.mp hdk).1
    obtain ⟨halen, hget⟩ := distributeTopicsGo_ok_inv spec.topic_tags
      (expandDifficultySlots spec) 0 assigns hgo
    have hgk := hget k hklt
    injection hs with hs
    have hstopics : s.topics = assigns.getD k [] := by rw [← hs]
    have hsdiff : d = Difficulty.hard := by
      rw [← hs] at hhard
      exact hhard
    have hdgetD : (expandDifficultySlots spec).getD k Difficulty.easy = d := by
      rw [List.getD_eq_getElem?_getD, hdk]
      rfl
    have hak : assigns.getD k [] = topicsForSlot spec.topic_tags Difficulty.hard k := by
      rw [List.getD_eq_getElem?_getD, hgk, Option.getD_some, hdgetD, hsdiff, Nat.zero_add]
    refine ⟨?_, ?_⟩
    · rw [hstopics, hak]
      exact topicsForSlot_hard_eq spec.topic_tags k h2
    · intro hnd hne
      have hn0 : 0 < spec.topic_tags.length := by omega
      have hpi : k % spec.topic_tags.length < spec.topic_tags.length := Nat.mod_lt _ hn0
      have hc1i : (k + 1) % spec.topic_tags.length < spec.topic_tags.length :=
        Nat.mod_lt _ hn0
      have hmodne : (k + 1) % spec.topic_tags.length ≠ k % spec.topic_tags.length := by
        rw [Nat.add_mod, Nat.mod_eq_of_lt (show 1 < spec.topic_tags.length from h2)]
        by_cases hlt : k % spec.topic_tags.length + 1 < spec.topic_tags.length
        · rw [Nat.mod_eq_of_lt hlt]
          omega
        · have hEq : k % spec.topic_tags.length + 1 = spec.topic_tags.length := by omega
          rw [hEq, Nat.mod_self]
          omega
      have hgetne : spec.topic_tags.getD ((k + 1) % spec.topic_tags.length) [] ≠
          spec.topic_tags.getD (k % spec.topic_tags.length) [] := by
        rw [List.getD_eq_getElem _ _ hc1i, List.getD_eq_getElem _ _ hpi]
        intro hEq
        exact hmodne ((List.Nodup.getElem_inj_iff hnd).mp hEq)
      have hc1mem : spec.topic_tags.getD ((k + 1) % spec.topic_tags.length) [] ∈
          spec.topic_tags := by
        rw [List.getD_eq_getElem _ _ hc1i]
        exact List.getElem_mem hc1i
      have hc1ne : spec.topic_tags.getD ((k + 1) % spec.topic_tags.length) [] ≠ [] :=
        hne _ hc1mem
      refine ⟨?_, hgetne⟩
      rw [hstopics, hak, topicsForSlot_hard_eq spec.topic_tags k h2,
        if_pos ⟨hc1ne, hgetne⟩]

/-- Witness for c6_amended_secondary_topics: a single hard slot over the
distinct tags a, b gets topics [a, b]. -/
theorem c6_amended_secondary_topics_witness :
    (⟨0, Difficulty.hard, ["a".data, "b".data], "java".data, "return".data, "k".data,
        8⟩ : ProblemSlot).topics = ["a".data, "b".data] ∧
    ((["a".data, "b".data] : List Src).Nodup →
      (∀ t ∈ (["a".data, "b".data] : List Src), t ≠ []) →
      (⟨0, Difficulty.hard, ["a".data, "b".data], "java".data, "return".data, "k".data,
          8⟩ : ProblemSlot).topics = ["a".data, "b".data] ∧
        "b".data ≠ "a".data) :=
  c6_amended_secondary_topics
    (⟨"java".data, 1, [⟨Difficulty.hard, 1⟩], ["a".data, "b".data], "return".data,
      "k".data, 8⟩ : ActivitySpec)
    [⟨0, Difficulty.hard, ["a".data, "b".data], "java".data, "return".data, "k".data, 8⟩]
    rfl 0
    (⟨0, Difficulty.hard, ["a".data, "b".data], "java".data, "return".data, "k".data,
      8⟩ : ProblemSlot)
    rfl rfl (by decide)

/-! ## testStrengthGate.ts — the test strength gate -/

theorem runGateGo_ok_iff (judge : JudgeRequest → JudgeResult) (bs : List Baseline) :
    runTestStrengthGateGo judge bs = .ok () ↔
      ∀ b ∈ bs, (judge b.request).success = false := by
  induction bs with
  | nil => simp [runTestStrengthGateGo]
  | cons b bs ih =>
    rw [runTestStrengthGateGo]
    by_cases hb : (judge b.request).success = true
    · rw [if_pos hb]
      constructor
      · intro h
        exact absurd h (by simp)
      · intro h
        have h1 := h b (List.mem_cons_self b bs)
        rw [hb] at h1
        exact absurd h1 (by simp)
    · rw [if_neg hb]
      have hbf : (judge b.request).success = false := by
        cases hx : (judge b.request).success
        · rfl
        · exact absurd hx hb
      rw [ih]
      constructor
      · intro h c hmem
        rcases List.mem_cons.mp hmem with hEq | hmem2
        · rw [hEq]
          exact hbf
        · exact h c hmem2
      · intro h c hmem
        exact h c (List.mem_cons_of_mem b hmem)

theorem runGateGo_error (judge : JudgeRequest → JudgeResult) (e : TestStrengthGateError) :
    ∀ bs : List Baseline, runTestStrengthGateGo judge bs = .error e →
      ∃ b ∈ bs, (judge b.request).success = true ∧ e.baselineId = b.id := by
  intro bs
  induction bs with
  | nil =>
    intro h
    rw [runTestStrengthGateGo] at h
    exact absurd h (by simp)
  | cons b bs ih =>
    intro h
    rw [runTestStrengthGateGo] at h
    by_cases hb : (judge b.request).success = true
    · rw [if_pos hb] at h
      injection h with h
      refine ⟨b, List.mem_cons_self b bs, hb, ?_⟩
      rw [← h]
    · rw [if_neg hb] at h
      obtain ⟨c, hmem, hsucc, hid⟩ := ih h
      exact ⟨c, List.mem_cons_of_mem b hmem, hsucc, hid⟩

/-- C1: the gate accepts a draft exactly when every baseline built for it
is judged as failing, and a gate error names a baseline that the judge
reported as succeeding. -/
theorem c1_gate_accepts_iff_baselines_fail (judge : JudgeRequest → JudgeResult)
    (draft : GeneratedProblemDraft) (slot : ProblemSlot) :
    (runTestStrengthGate judge draft slot = .ok () ↔
      ∀ b ∈ buildBaselines draft slot, (judge b.request).success = false) ∧
    (∀ e, runTestStrengthGate judge draft slot = .error e →
      ∃ b ∈ buildBaselines draft slot, (judge b.request).success = true ∧
        e.baselineId = b.id) :=
  ⟨runGateGo_ok_iff judge (buildBaselines draft slot),
    fun e h => runGateGo_error judge e (buildBaselines draft slot) h⟩

/-- Witness for c1_gate_accepts_iff_baselines_fail: with a judge that
fails everything, the gate accepts a concrete python draft, so its
starter baseline is judged as failing. -/
theorem c1_gate_accepts_iff_baselines_fail_witness :
    ((fun _ => (⟨false⟩ : JudgeResult)) (JudgeRequest.code "pass".data "t".data)).success =
      false :=
  (c1_gate_accepts_iff_baselines_fail (fun _ => (⟨false⟩ : JudgeResult))
      (⟨"python".data, "pass".data, "t".data, [], none⟩ : GeneratedProblemDraft)
      (⟨0, Difficulty.easy, [], "python".data, "return".data, [], 8⟩ : ProblemSlot)).1.mp
    rfl
    (⟨"starter_code".data, JudgeRequest.code "pass".data "t".data⟩ : Baseline)
    (by decide)

/-! ## structuralTopics.ts — Java structural topic obligations -/

theorem startsWithSub_self_append (p s : Src) : startsWithSub p (p ++ s) = true := by
  induction p with
  | nil => rfl
  | cons c p ih => simp [startsWithSub, ih]

theorem scanFirst_hit {α : Type} (attempt : Src → Option Char → Option α)
    (cs : Src) (prev : Option Char) (r : α) (h : attempt cs prev = some r) :
    scanFirst attempt cs prev = some r := by
  cases cs with
  | nil => rw [scanFirst, h]
  | cons c rest => rw [scanFirst, h]

theorem append_eq_of_concat {l1 p a base l2 : Src} (h : l1 = p ++ a) :
    l1 ++ base ++ l2 = p ++ (a ++ base ++ l2) := by
  subst h
  simp [List.append_assoc]

theorem mapTopic_poly_prefix (tail : Src) :
    mapJavaStructuralTopicErrorToObligationId
      ("Structural topic requirement failed (polymorphism)".data ++ tail) =
      some "java.structural_topic.polymorphism".data := by
  have h1 : jsToLower ("Structural topic requirement failed (polymorphism)".data ++ tail) =
      "structural topic requirement failed (".data ++
        ("polymorphism)".data ++ jsToLower tail) := by
    rw [jsToLower, List.map_append]
    rw [show List.map Char.toLower "Structural topic requirement failed (polymorphism)".data =
      "structural topic requirement failed (".data ++ "polymorphism)".data from by decide]
    rw [List.append_assoc]
    rfl
  rw [mapJavaStructuralTopicErrorToObligationId, h1]
  have hdrop : ("structural topic requirement failed (".data ++
      ("polymorphism)".data ++ jsToLower tail)).drop 37 =
      "polymorphism)".data ++ jsToLower tail := by
    rw [show (37 : Nat) = ("structural topic requirement failed (".data : Src).length from rfl]
    exact List.drop_left _ _
  have h2 : mapTopicAttempt ("structural topic requirement failed (".data ++
      ("polymorphism)".data ++ jsToLower tail)) none =
      some "java.structural_topic.polymorphism".data := by
    rw [mapTopicAttempt]
    rw [if_pos (startsWithSub_self_append "structural topic requirement failed (".data
      ("polymorphism)".data ++ jsToLower tail))]
    rw [hdrop]
    rw [if_pos (startsWithSub_self_append "polymorphism)".data (jsToLower tail))]
  exact scanFirst_hit _ _ _ _ h2

theorem requireTestMentions_poly_error_prefix (suite : Src) (e : Src) :
    ∀ names, requireTestMentions suite names "polymorphism".data = .error e →
      ∃ tail, e = "Structural topic requirement failed (polymorphism)".data ++ tail := by
  intro names
  induction names with
  | nil =>
    intro h
    rw [requireTestMentions] at h
    exact absurd h (by simp)
  | cons n rest ih =>
    intro h
    rw [requireTestMentions] at h
    split at h
    · exact ih h
    · injection h with h
      refine ⟨": test_suite must mention \"".data ++ n ++ "\".".data, ?_⟩
      rw [← h]
      exact append_eq_of_concat (by decide)

theorem checkPolymorphism_error_prefix (index : JavaTypeIndex) (suite : Src) (e : Src)
    (h : checkPolymorphism index suite = .error e) :
    ∃ tail, e = "Structural topic requirement failed (polymorphism)".data ++ tail := by
  rw [checkPolymorphism.eq_def] at h
  split at h
  · injection h with h
    exact ⟨": reference solution must define an interface or abstract class to serve as a base type.".data,
      by rw [← h]; decide⟩
  next base heq =>
    split at h
    · injection h with h
      exact ⟨": reference solution must define an interface or abstract class to serve as a base type.".data,
        by rw [← h]; decide⟩
    · dsimp only at h
      split at h
      · injection h with h
        refine ⟨": must include at least 2 concrete implementations of \"".data ++ base ++
          "\".".data, ?_⟩
        rw [← h]
        exact append_eq_of_concat (by decide)
      · split at h
        next e2 heq =>
          injection h with h
          rw [h] at heq
          exact requireTestMentions_poly_error_prefix suite e _ heq
        next heq =>
          split at h
          · exact absurd h (by simp)
          · injection h with h
            refine ⟨": test_suite must assign a \"".data ++ base ++
              "\" reference to a concrete implementation to exercise dynamic dispatch.".data, ?_⟩
            rw [← h]
            exact append_eq_of_concat (by decide)

theorem checkPolymorphism_ok_inv (index : JavaTypeIndex) (suite : Src)
    (h : checkPolymorphism index suite = .ok ()) :
    ∃ base, pickBaseType index = some base ∧ base ≠ [] ∧
      2 ≤ (findImplementations index base).length ∧
      requireTestMentions suite [base, (findImplementations index base).getD 0 [],
        (findImplementations index base).getD 1 []] "polymorphism".data = .ok () ∧
      (scanFirst (matchBaseVarNew base) suite none).isSome = true := by
  rw [checkPolymorphism.eq_def] at h
  split at h
  · exact absurd h (by simp)
  next base heq =>
    split at h
    · exact absurd h (by simp)
    next hbne =>
      dsimp only at h
      split at h
      · exact absurd h (by simp)
      next hlen =>
        split at h
        next e2 hreq => exact absurd h (by simp)
        next hreq =>
          split at h
          next hsome =>
            exact ⟨base, heq, hbne, by omega, hreq, hsome⟩
          · exact absurd h (by simp)

theorem requiredStructuralTopics_poly_head (topics : List Src)
    (hhas : hasStructuralTopic topics StructuralTopic.polymorphism = true) :
    ∃ rest, requiredStructuralTopics topics = StructuralTopic.polymorphism :: rest := by
  rw [requiredStructuralTopics, if_pos hhas]
  simp only [List.singleton_append, List.cons_append]
  rw [dedup, dedupGo.eq_2, if_neg (List.not_mem_nil _)]
  exact ⟨_, rfl⟩

/-- C9: counterexample.  The reference defines interface Shape with two
implementations Circle and Square; the test suite mentions all three but
its only base-typed assignment constructs the base itself
(Shape s = new Shape()), never a concrete implementation — yet the
polymorphism check passes, because the dispatch probe
`\bShape\b\s+\w+\s*=\s*new\s+\w+\b` accepts any constructed word. -/
theorem c9_counterexample :
    assertJavaStructuralTopicRequirements ["polymorphism".data]
      "interface Shape \x7b\x7d class Circle implements Shape \x7b\x7d class Square implements Shape \x7b\x7d".data
      "class MainTest \x7b Shape s = new Shape(); Circle c; Square q; \x7d".data =
      .ok () ∧
    pickBaseType (indexJavaTypes
      "interface Shape \x7b\x7d class Circle implements Shape \x7b\x7d class Square implements Shape \x7b\x7d".data) =
      some "Shape".data ∧
    findImplementations (indexJavaTypes
      "interface Shape \x7b\x7d class Circle implements Shape \x7b\x7d class Square implements Shape \x7b\x7d".data)
      "Shape".data = ["Circle".data, "Square".data] ∧
    (∀ impl ∈ [("Circle".data : Src), "Square".data],
      scanFirst (matchBaseNewSub "Shape".data impl)
        "class MainTest \x7b Shape s = new Shape(); Circle c; Square q; \x7d".data
        none = none) :=
  ⟨rfl, by decide, by decide, by decide⟩

/-- C9 (amended): when the slot topics include polymorphism, the
structural check passes only if the reference has an interface or
abstract base type with at least two implementing classes and the test
suite mentions the base and the first two implementations and contains a
base-typed variable assigned from `new` of some word (not necessarily a
concrete implementation); and when the polymorphism branch fails, the
whole check fails with that error, whose message maps to the obligation
java.structural_topic.polymorphism. -/
theorem c9_amended_polymorphism (topics : List Src) (ref suite : Src)
    (hhas : hasStructuralTopic topics StructuralTopic.polymorphism = true) :
    (assertJavaStructuralTopicRequirements topics ref suite = .ok () →
      ∃ base, pickBaseType (indexJavaTypes ref) = some base ∧ base ≠ [] ∧
        2 ≤ (findImplementations (indexJavaTypes ref) base).length ∧
        requireTestMentions suite [base,
          (findImplementations (indexJavaTypes ref) base).getD 0 [],
          (findImplementations (indexJavaTypes ref) base).getD 1 []]
          "polymorphism".data = .ok () ∧
        (scanFirst (matchBaseVarNew base) suite none).isSome = true) ∧
    (∀ e, checkPolymorphism (indexJavaTypes ref) suite = .error e →
      assertJavaStructuralTopicRequirements topics ref suite = .error e ∧
      mapJavaStructuralTopicErrorToObligationId e =
        some "java.structural_topic.polymorphism".data) := by
  obtain ⟨rest, hreq⟩ := requiredStructuralTopics_poly_head topics hhas
  have hA : assertJavaStructuralTopicRequirements topics ref suite =
      (if requiredStructuralTopics topics = [] then Except.ok () else
        runStructuralChecks (indexJavaTypes ref)
          (pickStatefulPrimaryClass (indexJavaTypes ref)) ref suite
          (requiredStructuralTopics topics)) := rfl
  have hR : runStructuralChecks (indexJavaTypes ref)
      (pickStatefulPrimaryClass (indexJavaTypes ref)) ref suite
      (StructuralTopic.polymorphism :: rest) =
      (match checkPolymorphism (indexJavaTypes ref) suite with
        | Except.ok _ => runStructuralChecks (indexJavaTypes ref)
            (pickStatefulPrimaryClass (indexJavaTypes ref)) ref suite rest
        | Except.error e => Except.error e) := rfl
  constructor
  · intro hok
    rw [hA, hreq, if_neg (by simp), hR] at hok
    cases hcp : checkPolymorphism (indexJavaTypes ref) suite with
    | error e2 =>
      rw [hcp] at hok
      exact absurd hok (by simp)
    | ok u =>
      cases u
      exact checkPolymorphism_ok_inv _ _ hcp
  · intro e hcp
    refine ⟨?_, ?_⟩
    · rw [hA, hreq, if_neg (by simp), hR, hcp]
    · obtain ⟨tail, htail⟩ := checkPolymorphism_error_prefix _ _ _ hcp
      rw [htail]
      exact mapTopic_poly_prefix tail

/-- Witness for c9_amended_polymorphism at the Shape/Circle/Square
reference: the check passes, so the pass-inversion produces the base and
its implementations. -/
theorem c9_amended_polymorphism_witness :
    ∃ base, pickBaseType (indexJavaTypes
        "interface Shape \x7b\x7d class Circle implements Shape \x7b\x7d class Square implements Shape \x7b\x7d".data) =
        some base ∧ base ≠ [] ∧
      2 ≤ (findImplementations (indexJavaTypes
        "interface Shape \x7b\x7d class Circle implements Shape \x7b\x7d class Square implements Shape \x7b\x7d".data) base).length ∧
      requireTestMentions
        "class ShapeTest \x7b Shape s = new Circle(); Circle c; Square q; \x7d".data
        [base,
          (findImplementations (indexJavaTypes
            "interface Shape \x7b\x7d class Circle implements Shape \x7b\x7d class Square implements Shape \x7b\x7d".data) base).getD 0 [],
          (findImplementations (indexJavaTypes
            "interface Shape \x7b\x7d class Circle implements Shape \x7b\x7d class Square implements Shape \x7b\x7d".data) base).getD 1 []]
        "polymorphism".data = .ok () ∧
      (scanFirst (matchBaseVarNew base)
        "class ShapeTest \x7b Shape s = new Circle(); Circle c; Square q; \x7d".data
        none).isSome = true :=
  (c9_amended_polymorphism ["polymorphism".data]
    "interface Shape \x7b\x7d class Circle implements Shape \x7b\x7d class Square implements Shape \x7b\x7d".data
    "class ShapeTest \x7b Shape s = new Circle(); Circle c; Square q; \x7d".data
    (by decide)).1 rfl

/-! ## obligations.ts (java legacy path) and sampleDrivenTests.ts -/

theorem outputChecks_ok_inv (usesStdin : Bool) (ref suite : Src)
    (h : outputChecks usesStdin ref suite = .ok ()) :
    javaUsesStdout ref = true ∧ javaTestSuiteCapturesStdout suite = true ∧
      (usesStdin = true → javaTestSuiteSetsStdin suite = true) := by
  rw [outputChecks] at h
  split at h
  · exact absurd h (by simp)
  next h1 =>
    split at h
    · exact absurd h (by simp)
    next h2 =>
      split at h
      · exact absurd h (by simp)
      next h3 =>
        refine ⟨not_not.mp h1, not_not.mp h2, ?_⟩
        intro hs
        by_cases hset : javaTestSuiteSetsStdin suite = true
        · exact hset
        · exact absurd ⟨hs, hset⟩ h3

theorem constraintsCheck_ok_inv (slot : ProblemSlot) (raw : RawDraft)
    (h : constraintsCheck slot raw = .ok ()) :
    jsTrim (raw.constraints.getD []) = [] ∨
      jsTrim (raw.constraints.getD []) = slot.constraints := by
  rw [constraintsCheck] at h
  dsimp only at h
  split at h
  · exact absurd h (by simp)
  next hcond =>
    have heq : (match raw.constraints with
        | some s => jsTrim s
        | none => ([] : Src)) = jsTrim (raw.constraints.getD []) := by
      cases raw.constraints <;> rfl
    rw [heq] at hcond
    by_cases h1 : jsTrim (raw.constraints.getD []) = []
    · exact Or.inl h1
    · by_cases h2 : jsTrim (raw.constraints.getD []) = slot.constraints
      · exact Or.inr h2
      · exact absurd ⟨h1, h2⟩ hcond

theorem generateJavaLegacyDraft_ok_inv (slot : ProblemSlot) (raw : RawDraft)
    (freshId : Src) (runner : Src → Src → RunResult) (draft : JavaDraft)
    (rws : List Src)
    (h : generateJavaLegacyDraft slot raw freshId runner = .ok (draft, rws)) :
    draft.constraints = slot.constraints ∧
    (jsTrim (raw.constraints.getD []) = [] ∨
      jsTrim (raw.constraints.getD []) = slot.constraints) ∧
    javaUsesStdout draft.reference_solution = true ∧
    javaTestSuiteCapturesStdout draft.test_suite = true ∧
    (javaUsesStdin draft.reference_solution = true →
      javaTestSuiteSetsStdin draft.test_suite = true) := by
  rw [generateJavaLegacyDraft] at h
  dsimp only at h
  split at h
  · exact absurd h (by simp)
  next st hst =>
    split at h
    · exact absurd h (by simp)
    next rf hrf =>
      split at h
      · exact absurd h (by simp)
      next hgate =>
        split at h
        · exact absurd h (by simp)
        next stdinRes hstdin =>
          split at h
          · exact absurd h (by simp)
          next su hsu =>
            split at h
            · exact absurd h (by simp)
            next hout =>
              split at h
              · exact absurd h (by simp)
              next hcon =>
                split at h <;> (try split at h) <;>
                  first
                  | (injection h with h
                     rw [Prod.mk.injEq] at h
                     obtain ⟨hdraft, hrws⟩ := h
                     subst hdraft
                     obtain ⟨ho1, ho2, ho3⟩ := outputChecks_ok_inv _ _ _ hout
                     have hcc := constraintsCheck_ok_inv _ _ hcon
                     exact ⟨rfl, hcc, ho1, ho2, ho3⟩)
                  | simp at h

set_option maxHeartbeats 1000000 in
theorem generateJavaLegacyDraft_stdin_error (slot : ProblemSlot) (raw : RawDraft)
    (freshId : Src) (runner : Src → Src → RunResult) (st : StarterResult)
    (rf : RefResult) (e : GenerationContractError)
    (hst : processStarter slot raw = .ok st)
    (hrf : processReference slot st.className raw = .ok rf)
    (hgate : stdinGate (javaUsesStdin rf.refSource) slot.topics rf.refSource = .ok ())
    (hstdin : stdinStage raw rf.refSource st.className (st.className ++ "Test".data)
      (javaUsesStdin rf.refSource) runner = .error e) :
    generateJavaLegacyDraft slot raw freshId runner = .error e := by
  rw [generateJavaLegacyDraft]
  dsimp only
  split
  next e2 heq =>
    rw [hst] at heq
    exact absurd heq (by simp)
  next st2 heq =>
    rw [hst] at heq
    injection heq with heq
    subst heq
    split
    next e2 heq2 =>
      rw [hrf] at heq2
      exact absurd heq2 (by simp)
    next rf2 heq2 =>
      rw [hrf] at heq2
      injection heq2 with heq2
      subst heq2
      split
      next e2 heq3 =>
        rw [hgate] at heq3
        exact absurd heq3 (by simp)
      next heq3 =>
        split
        next e2 heq4 =>
          rw [hstdin] at heq4
          injection heq4 with heq4
          rw [heq4]
        next r heq4 =>
          rw [hstdin] at heq4
          exact absurd heq4 (by simp)

set_option maxRecDepth 100000 in
/-- C3: counterexample.  An otherwise valid LLM output whose constraints
field ("WRONG") is non-empty and differs from the slot constraints ("C")
makes the java legacy path fail with the "Invalid constraints" contract
error; the field is not replaced with the slot constraints and no rewrite
is recorded. -/
theorem c3_counterexample :
    generateJavaLegacyDraft slot3 rawBad "fresh".data dummyRunner =
      .error ⟨"Invalid constraints for slot 0: must match slot.constraints exactly.".data,
        none⟩ ∧
    jsTrim ("WRONG".data) ≠ [] ∧ jsTrim ("WRONG".data) ≠ slot3.constraints :=
  ⟨rfl, by decide, by decide⟩

/-- C3 (amended): whenever the java legacy path returns a draft, the
draft's constraints equal the slot's constraints verbatim, and the LLM
output's constraints field was either empty/absent or already equal to
the slot constraints — a mismatching field is never replaced or recorded
as a rewrite; it fails the attempt. -/
theorem c3_amended_constraints_lock (slot : ProblemSlot) (raw : RawDraft) (freshId : Src)
    (runner : Src → Src → RunResult) (draft : JavaDraft) (rws : List Src)
    (h : generateJavaLegacyDraft slot raw freshId runner = .ok (draft, rws)) :
    draft.constraints = slot.constraints ∧
    (jsTrim (raw.constraints.getD []) = [] ∨
      jsTrim (raw.constraints.getD []) = slot.constraints) := by
  obtain ⟨h1, h2, _⟩ := generateJavaLegacyDraft_ok_inv slot raw freshId runner draft rws h
  exact ⟨h1, h2⟩

set_option maxRecDepth 100000 in
/-- C3 (amended) witness at `slot3`/`rawGood`: the produced draft is
`c3Draft`, whose constraints equal the slot's. -/
theorem c3_amended_constraints_lock_witness :
    c3Draft.constraints = slot3.constraints ∧
    (jsTrim (rawGood.constraints.getD []) = [] ∨
      jsTrim (rawGood.constraints.getD []) = slot3.constraints) :=
  c3_amended_constraints_lock slot3 rawGood "fresh".data dummyRunner c3Draft [] rfl

set_option maxRecDepth 100000 in
/-- C5: counterexample.  With a runner that writes "boom" to stderr, the
stdin sample-driven rebuild of `slot5`/`raw5` fails the slot with the
stderr message, but the failure is the wrapped `GenerationContractError`
whose slot failure kind is "contract", not "execution". -/
theorem c5_counterexample :
    generateJavaLegacyDraft slot5 raw5 "fresh".data boomRunner =
      .error ⟨"Reference execution produced stderr (stdin sample): boom".data, none⟩ ∧
    javaUsesStdin ref5 = true ∧
    slotFailureKindOf ⟨"Reference execution produced stderr (stdin sample): boom".data,
      none⟩ = "contract".data ∧
    "contract".data ≠ "execution".data :=
  ⟨rfl, by decide, rfl, by decide⟩

set_option maxRecDepth 100000 in
/-- C5 (amended): whenever executing the reference of `slot5`/`raw5`
against the first stdin sample yields non-empty stderr, the java legacy
path fails the slot (no best-effort rebuild) with the stderr message,
and the resulting failure kind is "contract" — not "execution". -/
theorem c5_amended_stderr_contract_kind (runner : Src → Src → RunResult)
    (hstderr : jsTrim (runner ref5 "a".data).stderr ≠ []) :
    generateJavaLegacyDraft slot5 raw5 "fresh".data runner =
      .error ⟨"Reference execution produced stderr (stdin sample): ".data ++
        (jsTrim (runner ref5 "a".data).stderr).take 400, none⟩ ∧
    slotFailureKindOf ⟨"Reference execution produced stderr (stdin sample): ".data ++
      (jsTrim (runner ref5 "a".data).stderr).take 400, none⟩ = "contract".data ∧
    "contract".data ≠ "execution".data := by
  refine ⟨?_, rfl, by decide⟩
  have hcomp : computeJavaStdoutSamplesByExecutingReference runner ref5 stdin5 8 =
      .error ("Reference execution produced stderr (stdin sample): ".data ++
        (jsTrim (runner ref5 "a".data).stderr).take 400) := by
    show computeStdoutSamplesGo runner ref5 (stdin5.take 8) = _
    have htake : stdin5.take 8 = "a".data :: ["b".data, "c".data, "d".data, "e".data,
      "f".data, "g".data, "h".data] := rfl
    rw [htake, computeStdoutSamplesGo]
    dsimp only
    rw [if_pos hstderr]
  have hred : stdinStage raw5 ref5 "Foo".data ("Foo".data ++ "Test".data)
      (javaUsesStdin ref5) runner =
      (match computeJavaStdoutSamplesByExecutingReference runner ref5 stdin5 8 with
       | .error m => .error ⟨m, none⟩
       | .ok stdoutSamples =>
         match buildJavaStdinSampleDrivenJUnitTestSuite ("Foo".data ++ "Test".data)
             "Foo".data ((List.range 8).map (fun i =>
               ⟨stdin5.getD i [], stdoutSamples.getD i []⟩)) with
         | .error m => .error ⟨m, none⟩
         | .ok suite => .ok (some ⟨suite, stdin5.take 8, stdoutSamples.take 8⟩)) := rfl
  rw [hcomp] at hred
  exact generateJavaLegacyDraft_stdin_error slot5 raw5 "fresh".data runner
    ⟨"public class Foo \x7b\x7d".data, "Foo".data, []⟩ ⟨ref5, []⟩ _
    rfl rfl rfl hred

set_option maxRecDepth 100000 in
/-- C5 (amended) witness at the concrete `boomRunner`. -/
theorem c5_amended_stderr_contract_kind_witness :
    generateJavaLegacyDraft slot5 raw5 "fresh".data boomRunner =
      .error ⟨"Reference execution produced stderr (stdin sample): ".data ++
        (jsTrim (boomRunner ref5 "a".data).stderr).take 400, none⟩ ∧
    slotFailureKindOf ⟨"Reference execution produced stderr (stdin sample): ".data ++
      (jsTrim (boomRunner ref5 "a".data).stderr).take 400, none⟩ = "contract".data ∧
    "contract".data ≠ "execution".data :=
  c5_amended_stderr_contract_kind boomRunner (by decide)

set_option maxRecDepth 100000 in
/-- C10: counterexample.  Through the targeted reference-repair branch of
`generateSingleProblem`, a java slot returns a draft whose repaired
reference solution never writes to stdout and whose test suite never
captures stdout: the repair path revalidates only the draft schema and
the legacy invariants, which include no stdout obligation. -/
theorem c10_counterexample :
    generateSingleProblemJava slot3 (some (prev10, rep10)) rawNone "fresh".data dummyRunner =
      .ok ({ prev10 with reference_solution := rep10 }, []) ∧
    javaUsesStdout rep10 = false ∧
    javaTestSuiteCapturesStdout prev10.test_suite = false :=
  ⟨rfl, by decide, by decide⟩

/-- C10 (amended): on the fresh java legacy path (no repair), a draft is
returned only if its reference solution writes to stdout and its test
suite captures stdout, regardless of the slot problem_style; the repair
path, however, does not re-check these obligations. -/
theorem c10_amended_stdout_obligations (slot : ProblemSlot) (raw : RawDraft) (freshId : Src)
    (runner : Src → Src → RunResult) (draft : JavaDraft) (rws : List Src)
    (h : generateJavaLegacyDraft slot raw freshId runner = .ok (draft, rws)) :
    javaUsesStdout draft.reference_solution = true ∧
    javaTestSuiteCapturesStdout draft.test_suite = true ∧
    (javaUsesStdin draft.reference_solution = true →
      javaTestSuiteSetsStdin draft.test_suite = true) :=
  (generateJavaLegacyDraft_ok_inv slot raw freshId runner draft rws h).2.2

set_option maxRecDepth 100000 in
/-- C10 (amended) witness at `slot3`/`rawGood` on the fresh path. -/
theorem c10_amended_stdout_obligations_witness :
    javaUsesStdout c3Draft.reference_solution = true ∧
    javaTestSuiteCapturesStdout c3Draft.test_suite = true ∧
    (javaUsesStdin c3Draft.reference_solution = true →
      javaTestSuiteSetsStdin c3Draft.test_suite = true) :=
  c10_amended_stdout_obligations slot3 rawGood "fresh".data dummyRunner c3Draft [] rfl

end Codemm
